import Mathlib

/-!
Verification of `redeploy.go`, the program that restarts the controllers owning the pods
whose name contains "database".

A shallow embedding of `src/redeploy.go`.  The program talks to three things it
does not implement itself: the Kubernetes API (through a `Clientset`), the wall
clock (`metav1.Now`) and the process streams.  They are embedded as follows.

* The cluster and the clock form an abstract world `σ`; every client call and
  every clock reading is a function `σ → result × σ`, supplied as a parameter.
  Nothing is assumed about these functions, so every theorem holds for every
  behaviour of the API server, every pattern of failures included.
* What `main` meets before it has a client is a `Setup`: the outcome of
  `flag.Parse()`, which may end the process itself, and the library calls
  `BuildConfigFromFlags` and `NewForConfig`, each with the lines the library
  writes to stderr during the call.
* What the program does is recorded in a log of `Event`s, in program order:
  the API calls it issues, the returns of `restartDeployment` and
  `restartStatefulSet`, and the lines it prints on stdout and stderr.
* Go's `error` is `Option GoError` (`none` is `nil`); a `GoError` is the text
  that `%v` prints.
* Go strings are byte strings; they are embedded as Lean strings.  The only
  string operation of the program that looks inside a string is
  `strings.Contains(_, "database")`, whose needle is ASCII.
-/

namespace Redeploy

/-! ## Data model -/

/-- A non-nil Go `error`, identified with the text printed for it by `%v`. -/
abbrev GoError := String

/-- The fields of `metav1.OwnerReference` read by the program. -/
structure OwnerReference where
  Kind : String
  Name : String
  deriving DecidableEq, Repr

/-- The fields of `corev1.Pod` read by the program. -/
structure Pod where
  Name : String
  Namespace : String
  OwnerReferences : List OwnerReference
  deriving DecidableEq, Repr

/-- A non-nil Go `map[string]string`, as an association list read by first match. -/
abbrev StringMap := List (String × String)

/-- Map lookup `m[k]`. -/
def StringMap.get (m : StringMap) (k : String) : Option String :=
  match m with
  | [] => none
  | (k', v') :: rest => if k' = k then some v' else StringMap.get rest k

/-- Map assignment `m[k] = v`: overwrite the entry of `k`, or add one. -/
def StringMap.set (m : StringMap) (k v : String) : StringMap :=
  match m with
  | [] => [(k, v)]
  | (k', v') :: rest => if k' = k then (k, v) :: rest else (k', v') :: StringMap.set rest k v

/-- Keys of a map, in the order of the association list. -/
def StringMap.keys (m : StringMap) : List String := m.map Prod.fst

/-- An `appsv1.Deployment`: its name (`ObjectMeta.Name`), its pod-template annotations
(`Spec.Template.Annotations`, `none` is the nil map) and, as `Other`, all its other fields. -/
structure Deployment (δ : Type) where
  Name : String
  TemplateAnnotations : Option StringMap
  Other : δ
  deriving DecidableEq, Repr

/-- An `appsv1.StatefulSet`, with the same three parts as `Deployment`. -/
structure StatefulSet (ς : Type) where
  Name : String
  TemplateAnnotations : Option StringMap
  Other : ς
  deriving DecidableEq, Repr

/-- The client operations used by the program, over a world `σ`, with the clock reading
`metav1.Now().String()`.  `update*` returns only the error: the program discards the object
returned by `Update`. -/
structure Clientset (σ δ ς : Type) where
  listPods : String → σ → Except GoError (List Pod) × σ
  getDeployment : String → String → σ → Except GoError (Deployment δ) × σ
  updateDeployment : String → Deployment δ → σ → Option GoError × σ
  getStatefulSet : String → String → σ → Except GoError (StatefulSet ς) × σ
  updateStatefulSet : String → StatefulSet ς → σ → Option GoError × σ
  now : σ → String × σ

/-- The two controller kinds the program restarts. -/
inductive Kind where
  | Deployment
  | StatefulSet
  deriving DecidableEq, Repr

/-- The string a `Kind` stands for in an owner reference. -/
def Kind.toString : Kind → String
  | .Deployment => "Deployment"
  | .StatefulSet => "StatefulSet"

/-- Observable actions of the program, in program order. -/
inductive Event (δ ς : Type) where
  | listPods (ns : String)
  | getDeployment (ns name : String)
  | updateDeployment (ns : String) (obj : Deployment δ)
  | getStatefulSet (ns name : String)
  | updateStatefulSet (ns : String) (obj : StatefulSet ς)
  /-- The call `restartDeployment(clientset, ns, name)` (or `restartStatefulSet`) made by
  `main` has returned `result`. -/
  | restart (kind : Kind) (ns name : String) (result : Option GoError)
  | stdout (text : String)
  | stderr (text : String)
  deriving DecidableEq, Repr

/-! ## The program -/

/-- The annotation key written by both restart functions. -/
def restartedAt : String := "kubectl.kubernetes.io/restartedAt"

/-- Whether `sub` occurs in `s` at some position. -/
def containsChars (s sub : List Char) : Bool :=
  match s with
  | [] => sub.isEmpty
  | c :: cs => sub.isPrefixOf (c :: cs) || containsChars cs sub

/-- Go's `strings.Contains(s, substr)`. -/
def stringsContains (s substr : String) : Bool := containsChars s.data substr.data

/-- What a restart function returns: the error, the world it leaves and the API calls it made. -/
structure CallResult (σ δ ς : Type) where
  err : Option GoError
  world : σ
  calls : List (Event δ ς)

/-- Lines 73-76 of `restartDeployment`: create the annotation map if it is nil, then set the
marker to the timestamp `t`. -/
def Deployment.annotate {δ : Type} (d : Deployment δ) (t : String) : Deployment δ :=
  let annotations : StringMap := match d.TemplateAnnotations with
    | none => []
    | some m => m
  { d with TemplateAnnotations := some (annotations.set restartedAt t) }

/-- Lines 90-93 of `restartStatefulSet`. -/
def StatefulSet.annotate {ς : Type} (d : StatefulSet ς) (t : String) : StatefulSet ς :=
  let annotations : StringMap := match d.TemplateAnnotations with
    | none => []
    | some m => m
  { d with TemplateAnnotations := some (annotations.set restartedAt t) }

/-- The function `restartDeployment` (lines 65-80). -/
def restartDeployment {σ δ ς : Type} (clientset : Clientset σ δ ς) (ns name : String)
    (w : σ) : CallResult σ δ ς :=
  match clientset.getDeployment ns name w with
  | (.error err, w1) => ⟨some err, w1, [.getDeployment ns name]⟩
  | (.ok deployment, w1) =>
    let t := clientset.now w1
    let deployment := deployment.annotate t.1
    let r := clientset.updateDeployment ns deployment t.2
    ⟨r.1, r.2, [.getDeployment ns name, .updateDeployment ns deployment]⟩

/-- The function `restartStatefulSet` (lines 82-97). -/
def restartStatefulSet {σ δ ς : Type} (clientset : Clientset σ δ ς) (ns name : String)
    (w : σ) : CallResult σ δ ς :=
  match clientset.getStatefulSet ns name w with
  | (.error err, w1) => ⟨some err, w1, [.getStatefulSet ns name]⟩
  | (.ok statefulSet, w1) =>
    let t := clientset.now w1
    let statefulSet := statefulSet.annotate t.1
    let r := clientset.updateStatefulSet ns statefulSet t.2
    ⟨r.1, r.2, [.getStatefulSet ns name, .updateStatefulSet ns statefulSet]⟩

/-- The state of `main` while it runs its loop: the shared variable `err`, the world and the
log so far. -/
structure LoopState (σ δ ς : Type) where
  err : Option GoError
  world : σ
  log : List (Event δ ς)

/-- The line printed at lines 54-58 for an owner reference, given the value of `err`. -/
def outcomeLine {δ ς : Type} (kind name : String) (err : Option GoError) : Event δ ς :=
  match err with
  | some e => .stderr ("Error restarting " ++ kind ++ " " ++ name ++ ": " ++ e ++ "\n")
  | none => .stdout ("Successfully restarted " ++ kind ++ " " ++ name ++ "\n")

/-- The `switch` of lines 48-53: assign `err` from the restart function chosen by the kind;
for any other kind no case is taken and the state is unchanged. -/
def switchKind {σ δ ς : Type} (clientset : Clientset σ δ ς) (pod : Pod)
    (ownerRef : OwnerReference) (s : LoopState σ δ ς) : LoopState σ δ ς :=
  if ownerRef.Kind = "Deployment" then
    let r := restartDeployment clientset pod.Namespace ownerRef.Name s.world
    ⟨r.err, r.world,
      s.log ++ r.calls ++ [.restart .Deployment pod.Namespace ownerRef.Name r.err]⟩
  else if ownerRef.Kind = "StatefulSet" then
    let r := restartStatefulSet clientset pod.Namespace ownerRef.Name s.world
    ⟨r.err, r.world,
      s.log ++ r.calls ++ [.restart .StatefulSet pod.Namespace ownerRef.Name r.err]⟩
  else s

/-- One iteration of the inner loop (lines 47-59): the `switch`, then the `if err != nil`. -/
def ownerRefStep {σ δ ς : Type} (clientset : Clientset σ δ ς) (pod : Pod)
    (s : LoopState σ δ ς) (ownerRef : OwnerReference) : LoopState σ δ ς :=
  let s1 := switchKind clientset pod ownerRef s
  { s1 with log := s1.log ++ [outcomeLine ownerRef.Kind ownerRef.Name s1.err] }

/-- The inner loop over the owner references of one pod. -/
def ownerRefsLoop {σ δ ς : Type} (clientset : Clientset σ δ ς) (pod : Pod)
    (s : LoopState σ δ ς) (ownerRefs : List OwnerReference) : LoopState σ δ ς :=
  ownerRefs.foldl (ownerRefStep clientset pod) s

/-- One iteration of the outer loop (lines 44-62). -/
def podStep {σ δ ς : Type} (clientset : Clientset σ δ ς)
    (s : LoopState σ δ ς) (pod : Pod) : LoopState σ δ ς :=
  if stringsContains pod.Name "database" then
    if pod.OwnerReferences.length > 0 then
      ownerRefsLoop clientset pod s pod.OwnerReferences
    else s
  else s

/-- The loop of `main` (lines 44-62) over `pods.Items`. -/
def mainLoop {σ δ ς : Type} (clientset : Clientset σ δ ς)
    (s : LoopState σ δ ς) (pods : List Pod) : LoopState σ δ ς :=
  pods.foldl (podStep clientset) s

/-- How the call `flag.Parse()` of line 19 ends.  It either returns, with the values of the
flags `-kubeconfig` and `-namespace`, or ends the process itself, as the `flag` package does
for a command line it rejects and for `-h`: it writes its lines to stderr and exits with its
own code. -/
inductive FlagOutcome where
  | parsed (kubeconfig ns : String)
  | exited (code : Nat) (lines : List String)
  deriving DecidableEq, Repr

/-- What `main` meets before it has a client: the outcome of `flag.Parse()` on the command
line of the process, and the two library calls `clientcmd.BuildConfigFromFlags` (called with
master URL `""` and the kubeconfig path) and `kubernetes.NewForConfig`.  Each of the two
calls gives, with its result, the lines the library itself writes to stderr during the
call. -/
structure Setup (σ δ ς κ : Type) where
  flagParse : FlagOutcome
  buildConfigFromFlags : String → String → List String × Except GoError κ
  newForConfig : κ → List String × Except GoError (Clientset σ δ ς)

/-- A finished run of the process. -/
structure Run (σ δ ς : Type) where
  exitCode : Nat
  world : σ
  log : List (Event δ ς)

/-- Lines written to stderr, as events. -/
def stderrEvents {δ ς : Type} (lines : List String) : List (Event δ ς) :=
  lines.map Event.stderr

/-- The function `main` (lines 15-63).  The exit code is the code of `flag.Parse` when that
call ends the process, 1 where the source calls `os.Exit(1)` and 0 where `main` returns. -/
def main {σ δ ς κ : Type} (setup : Setup σ δ ς κ) (w : σ) : Run σ δ ς :=
  match setup.flagParse with
  | .exited code lines => ⟨code, w, stderrEvents lines⟩
  | .parsed kubeconfig ns =>
    match setup.buildConfigFromFlags "" kubeconfig with
    | (out, .error err) =>
      ⟨1, w, stderrEvents out ++ [.stderr ("Error building kubeconfig: " ++ err ++ "\n")]⟩
    | (out, .ok config) =>
      match setup.newForConfig config with
      | (out', .error err) =>
        ⟨1, w, stderrEvents out ++ stderrEvents out' ++
          [.stderr ("Error creating Kubernetes client: " ++ err ++ "\n")]⟩
      | (out', .ok clientset) =>
        match clientset.listPods ns w with
        | (.error err, w1) =>
          ⟨1, w1, stderrEvents out ++ stderrEvents out' ++
            [.listPods ns, .stderr ("Error listing pods: " ++ err ++ "\n")]⟩
        | (.ok pods, w1) =>
          let s := mainLoop clientset
            ⟨none, w1, stderrEvents out ++ stderrEvents out' ++ [.listPods ns]⟩ pods
          ⟨0, s.world, s.log⟩

/-! ## Reading the log -/

/-- A Controller Target of the specification: a kind, a namespace and a name. -/
structure Target where
  kind : Kind
  ns : String
  name : String
  deriving DecidableEq, Repr

/-- The restart attempts of a log: the targets of the calls to the two restart functions, in
order. -/
def attempts {δ ς : Type} (log : List (Event δ ς)) : List Target :=
  log.filterMap fun e =>
    match e with
    | .restart kind ns name _ => some ⟨kind, ns, name⟩
    | _ => none

/-- The results of the restart attempts of a log, in order. -/
def attemptResults {δ ς : Type} (log : List (Event δ ς)) : List (Option GoError) :=
  log.filterMap fun e =>
    match e with
    | .restart _ _ _ result => some result
    | _ => none

/-- Whether an event is a get or an update call. -/
def Event.isGetOrUpdate {δ ς : Type} : Event δ ς → Bool
  | .getDeployment _ _ => true
  | .updateDeployment _ _ => true
  | .getStatefulSet _ _ => true
  | .updateStatefulSet _ _ => true
  | _ => false

/-- Whether an event is an update call. -/
def Event.isUpdate {δ ς : Type} : Event δ ς → Bool
  | .updateDeployment _ _ => true
  | .updateStatefulSet _ _ => true
  | _ => false

/-- Whether an event is a printed line. -/
def Event.isPrint {δ ς : Type} : Event δ ς → Bool
  | .stdout _ => true
  | .stderr _ => true
  | _ => false

/-- The get calls of a log, each as the kind, namespace and name it asks for. -/
def gets {δ ς : Type} (log : List (Event δ ς)) : List Target :=
  log.filterMap fun e =>
    match e with
    | .getDeployment ns name => some ⟨.Deployment, ns, name⟩
    | .getStatefulSet ns name => some ⟨.StatefulSet, ns, name⟩
    | _ => none

/-- The get and update calls of a log. -/
def getsAndUpdates {δ ς : Type} (log : List (Event δ ς)) : List (Event δ ς) :=
  log.filter Event.isGetOrUpdate

/-- Everything in a log but the printed lines. -/
def calls {δ ς : Type} (log : List (Event δ ς)) : List (Event δ ς) :=
  log.filter fun e => !e.isPrint

/-- The printed lines of a log, in order, each still tagged with its stream. -/
def printed {δ ς : Type} (log : List (Event δ ς)) : List (Event δ ς) :=
  log.filter Event.isPrint

/-- The lines written to stdout. -/
def stdoutLines {δ ς : Type} (log : List (Event δ ς)) : List String :=
  log.filterMap fun e =>
    match e with
    | .stdout text => some text
    | _ => none

/-- The lines written to stderr. -/
def stderrLines {δ ς : Type} (log : List (Event δ ς)) : List String :=
  log.filterMap fun e =>
    match e with
    | .stderr text => some text
    | _ => none

/-- The result of the most recent restart attempt of a log: `none` when the log has no
restart attempt or the most recent one succeeded, its error otherwise. -/
def lastResult {δ ς : Type} (log : List (Event δ ς)) : Option GoError :=
  (attemptResults log).getLast?.join

/-- Every restart attempt of the log is followed at once by its own outcome line: the line
names its kind and name and is the success line exactly when its result is `nil`. -/
def attemptsReported {δ ς : Type} : List (Event δ ς) → Prop
  | [] => True
  | .restart kind _ name result :: rest =>
    rest.head? = some (outcomeLine kind.toString name result) ∧ attemptsReported rest
  | _ :: rest => attemptsReported rest

/-- Whether every attempt of a log has its own line can be computed. -/
instance attemptsReported.decidable {δ ς : Type} [DecidableEq δ] [DecidableEq ς] :
    (log : List (Event δ ς)) → Decidable (attemptsReported log)
  | [] => isTrue trivial
  | .restart kind _ name result :: rest =>
    have := attemptsReported.decidable rest
    inferInstanceAs (Decidable
      (rest.head? = some (outcomeLine kind.toString name result) ∧ attemptsReported rest))
  | .listPods _ :: rest => attemptsReported.decidable rest
  | .getDeployment _ _ :: rest => attemptsReported.decidable rest
  | .updateDeployment _ _ :: rest => attemptsReported.decidable rest
  | .getStatefulSet _ _ :: rest => attemptsReported.decidable rest
  | .updateStatefulSet _ _ :: rest => attemptsReported.decidable rest
  | .stdout _ :: rest => attemptsReported.decidable rest
  | .stderr _ :: rest => attemptsReported.decidable rest

/-- The prefixing of a log to the log of a state. -/
def LoopState.prepend {σ δ ς : Type} (l : List (Event δ ς)) (s : LoopState σ δ ς) :
    LoopState σ δ ς :=
  { s with log := l ++ s.log }

/-! ## The Workload Matcher of the specification -/

/-- The Controller Target an owner reference of a pod stands for: one for kind `Deployment`,
one for kind `StatefulSet`, none for any other kind. -/
def ownerTarget (pod : Pod) (ownerRef : OwnerReference) : Option Target :=
  if ownerRef.Kind = "Deployment" then some ⟨.Deployment, pod.Namespace, ownerRef.Name⟩
  else if ownerRef.Kind = "StatefulSet" then some ⟨.StatefulSet, pod.Namespace, ownerRef.Name⟩
  else none

/-- The Controller Targets of a pod list (specification, section 4.1): for each pod whose
name contains "database", in list order, one target per owner reference of kind Deployment or
StatefulSet, in the order of the owner references, without de-duplication. -/
def targets (pods : List Pod) : List Target :=
  (pods.filter fun pod => stringsContains pod.Name "database").flatMap
    fun pod => pod.OwnerReferences.filterMap (ownerTarget pod)

/-! ## An in-memory cluster

A concrete world and client, used to run the program on concrete inputs. -/

/-- An in-memory cluster: its pods, its two stores of controllers keyed by namespace and
name, and the readings the clock will give. -/
structure MemWorld where
  pods : List Pod
  deployments : List ((String × String) × Deployment Unit)
  statefulSets : List ((String × String) × StatefulSet Unit)
  clock : List String
  deriving DecidableEq, Repr

/-- The object stored under a key. -/
def memGet {α : Type} (store : List ((String × String) × α)) (key : String × String) :
    Option α :=
  match store with
  | [] => none
  | (k, v) :: rest => if k = key then some v else memGet rest key

/-- Replace the object stored under a key; `none` when the key is absent. -/
def memPut {α : Type} (store : List ((String × String) × α)) (key : String × String) (v : α) :
    Option (List ((String × String) × α)) :=
  match store with
  | [] => none
  | (k, v') :: rest =>
    if k = key then some ((k, v) :: rest)
    else (memPut rest key v).map fun rest' => (k, v') :: rest'

/-- The error of the in-memory cluster for an absent object. -/
def notFound (resource name : String) : GoError :=
  resource ++ " \"" ++ name ++ "\" not found"

/-- The client of the in-memory cluster: get reads the store, update replaces an object that
exists, the clock gives its readings in turn. -/
def memClient : Clientset MemWorld Unit Unit where
  listPods ns w := (.ok (w.pods.filter fun p => ns = "" || p.Namespace = ns), w)
  getDeployment ns name w :=
    match memGet w.deployments (ns, name) with
    | some d => (.ok d, w)
    | none => (.error (notFound "deployments.apps" name), w)
  updateDeployment ns d w :=
    match memPut w.deployments (ns, d.Name) d with
    | some store => (none, { w with deployments := store })
    | none => (some (notFound "deployments.apps" d.Name), w)
  getStatefulSet ns name w :=
    match memGet w.statefulSets (ns, name) with
    | some d => (.ok d, w)
    | none => (.error (notFound "statefulsets.apps" name), w)
  updateStatefulSet ns d w :=
    match memPut w.statefulSets (ns, d.Name) d with
    | some store => (none, { w with statefulSets := store })
    | none => (some (notFound "statefulsets.apps" d.Name), w)
  now w := (w.clock.headD "", { w with clock := w.clock.tail })

/-- A setup whose flags parse to the given values, whose library calls succeed without
writing anything, and which yields the in-memory client. -/
def memSetup (kubeconfig ns : String) : Setup MemWorld Unit Unit Unit where
  flagParse := .parsed kubeconfig ns
  buildConfigFromFlags _ _ := ([], .ok ())
  newForConfig _ := ([], .ok memClient)

/-- Scenario A of the specification: namespace "prod" with a database pod owned by a
StatefulSet and a web pod owned by a Deployment. -/
def worldA : MemWorld where
  pods := [⟨"database-primary-0", "prod", [⟨"StatefulSet", "database"⟩]⟩,
    ⟨"web-1", "prod", [⟨"Deployment", "web"⟩]⟩]
  deployments := [(("prod", "web"), ⟨"web", none, ()⟩)]
  statefulSets := [(("prod", "database"), ⟨"database", some [("app", "db")], ()⟩)]
  clock := ["2026-01-01 00:00:01 +0000 UTC", "2026-01-01 00:00:02 +0000 UTC"]

/-- Scenario B of the specification: a database pod owned by a ReplicaSet only. -/
def podB : Pod := ⟨"database-cache-7f9", "prod", [⟨"ReplicaSet", "rs"⟩]⟩

/-- The world of scenario B. -/
def worldB : MemWorld where
  pods := [podB]
  deployments := []
  statefulSets := []
  clock := []

/-- Scenario C of the specification: the only target is a Deployment "ghost" that does not
exist. -/
def worldC : MemWorld where
  pods := [⟨"database-0", "prod", [⟨"Deployment", "ghost"⟩]⟩]
  deployments := []
  statefulSets := []
  clock := []

/-! ## Further definitions used by the statements -/

/-- In a run of `main`, building the client configuration, creating the client, or listing
the pods fails: the flags have parsed and the first of the three calls that returns an error
is reached. -/
def SetupOrListingFails {σ δ ς κ : Type} (setup : Setup σ δ ς κ) (w : σ) : Prop :=
  ∃ kubeconfig ns, setup.flagParse = .parsed kubeconfig ns ∧
    ((∃ e, (setup.buildConfigFromFlags "" kubeconfig).2 = .error e) ∨
    (∃ config e, (setup.buildConfigFromFlags "" kubeconfig).2 = .ok config ∧
      (setup.newForConfig config).2 = .error e) ∨
    (∃ config clientset e, (setup.buildConfigFromFlags "" kubeconfig).2 = .ok config ∧
      (setup.newForConfig config).2 = .ok clientset ∧
      (clientset.listPods ns w).1 = .error e))

/-- The lines the two library calls of the setup write to stderr in a run with the given
kubeconfig path: those of `BuildConfigFromFlags` and, when it succeeds, those of
`NewForConfig`. -/
def setupLines {σ δ ς κ : Type} (setup : Setup σ δ ς κ) (kubeconfig : String) : List String :=
  (setup.buildConfigFromFlags "" kubeconfig).1 ++
    match (setup.buildConfigFromFlags "" kubeconfig).2 with
    | .error _ => []
    | .ok config => (setup.newForConfig config).1

/-- A client whose listing fails, and which otherwise is the in-memory client. -/
def downClient : Clientset MemWorld Unit Unit :=
  { memClient with listPods := fun _ w => (.error "connection refused", w) }

/-- A setup that succeeds and yields the client whose listing fails. -/
def downSetup : Setup MemWorld Unit Unit Unit where
  flagParse := .parsed "" "prod"
  buildConfigFromFlags _ _ := ([], .ok ())
  newForConfig _ := ([], .ok downClient)

/-- The first warning `BuildConfigFromFlags` logs when both its arguments are empty. -/
def klogNoFlags : String :=
  "W1104 13:29:00.000000   4711 client_config.go:667] Neither --kubeconfig nor --master " ++
    "was specified.  Using the inClusterConfig.  This might not work.\n"

/-- The second warning `BuildConfigFromFlags` logs, outside a cluster. -/
def klogNoCluster : String :=
  "W1104 13:29:00.000100   4711 client_config.go:672] error creating inClusterConfig, " ++
    "falling back to default config: unable to load in-cluster configuration, " ++
    "KUBERNETES_SERVICE_HOST and KUBERNETES_SERVICE_PORT must be defined\n"

/-- The run with no flag outside a cluster and without a kubeconfig file:
`BuildConfigFromFlags("", "")` logs its two warnings to stderr and returns an error. -/
def klogSetup : Setup MemWorld Unit Unit Unit where
  flagParse := .parsed "" ""
  buildConfigFromFlags _ _ := ([klogNoFlags, klogNoCluster],
    .error ("invalid configuration: no configuration has been provided, " ++
      "try setting KUBERNETES_MASTER environment variable"))
  newForConfig _ := ([], .ok memClient)

/-- The run with the command line `-bogus`: `flag.Parse` writes its message and the usage to
stderr and exits with code 2. -/
def badFlagSetup : Setup MemWorld Unit Unit Unit where
  flagParse := .exited 2 ["flag provided but not defined: -bogus\n",
    "Usage of redeploy:\n",
    "  -kubeconfig string\n", "    \tpath to Kubernetes config file\n",
    "  -namespace string\n", "    \tKubernetes namespace (optional)\n"]
  buildConfigFromFlags _ _ := ([], .ok ())
  newForConfig _ := ([], .ok memClient)

/-- The state in which `main` enters its loop after a successful listing in the world `w`:
`err` is nil, and the log holds the lines `out` and `out'` that the two library calls of the
setup wrote to stderr, then the listing call. -/
def listedState {σ δ ς : Type} (w : σ) (out out' : List String) (ns : String) :
    LoopState σ δ ς :=
  ⟨none, w, stderrEvents out ++ stderrEvents out' ++ [.listPods ns]⟩

/-- The state of the loop of `main`, started in `s0`, when it reaches an owner reference of
`pod`: the pods `before` it have been handled, and so have the owner references `pre` that
precede it on `pod`. -/
def reachedState {σ δ ς : Type} (c : Clientset σ δ ς) (s0 : LoopState σ δ ς)
    (before : List Pod) (pod : Pod) (pre : List OwnerReference) : LoopState σ δ ς :=
  ownerRefsLoop c pod (mainLoop c s0 before) pre

/-- A batch of three targets of which the second does not exist. -/
def worldD : MemWorld where
  pods := [⟨"database-0", "prod", [⟨"StatefulSet", "database"⟩]⟩,
    ⟨"database-ghost-0", "prod", [⟨"Deployment", "ghost"⟩]⟩,
    ⟨"web-database-0", "prod", [⟨"Deployment", "web"⟩]⟩]
  deployments := [(("prod", "web"), ⟨"web", none, ()⟩)]
  statefulSets := [(("prod", "database"), ⟨"database", none, ()⟩)]
  clock := ["2026-01-01 00:00:01 +0000 UTC", "2026-01-01 00:00:02 +0000 UTC"]

/-- A database pod owned by a Deployment that does not exist and by a ReplicaSet. -/
def worldE : MemWorld where
  pods := [⟨"database-0", "prod", [⟨"Deployment", "ghost"⟩, ⟨"ReplicaSet", "rs"⟩]⟩]
  deployments := []
  statefulSets := []
  clock := []

/-! # Theorems -/

/-! ## Maps -/

theorem StringMap.get_set_self (m : StringMap) (k v : String) :
    (m.set k v).get k = some v := by
  induction m with
  | nil => simp [StringMap.set, StringMap.get]
  | cons p rest ih =>
    obtain ⟨k', v'⟩ := p
    by_cases h : k' = k
    · simp [StringMap.set, StringMap.get, h]
    · simp [StringMap.set, StringMap.get, h, ih]

theorem StringMap.get_set_of_ne (m : StringMap) (k v k' : String) (h : k' ≠ k) :
    (m.set k v).get k' = m.get k' := by
  induction m with
  | nil => simp [StringMap.set, StringMap.get, Ne.symm h]
  | cons p rest ih =>
    obtain ⟨k0, v0⟩ := p
    by_cases h0 : k0 = k
    · have h1 : ¬ k0 = k' := fun e => h (e.symm.trans h0)
      have h2 : ¬ k = k' := fun e => h e.symm
      simp [StringMap.set, StringMap.get, h0, h2]
    · by_cases h1 : k0 = k'
      · subst h1
        simp [StringMap.set, StringMap.get, h0]
      · simp [StringMap.set, StringMap.get, h0, h1, ih]

theorem StringMap.set_set (m : StringMap) (k v v' : String) :
    (m.set k v).set k v' = m.set k v' := by
  induction m with
  | nil => simp [StringMap.set]
  | cons p rest ih =>
    obtain ⟨k0, v0⟩ := p
    by_cases h0 : k0 = k
    · simp [StringMap.set, h0]
    · simp [StringMap.set, h0, ih]

theorem StringMap.keys_set_set (m : StringMap) (k v v' : String) :
    ((m.set k v).set k v').keys = (m.set k v).keys := by
  induction m with
  | nil => simp [StringMap.set, StringMap.keys]
  | cons p rest ih =>
    obtain ⟨k0, v0⟩ := p
    by_cases h0 : k0 = k
    · simp [StringMap.set, StringMap.keys, h0]
    · simp only [StringMap.keys] at ih
      simp [StringMap.set, StringMap.keys, h0, ih]

/-! ## Substring test -/

theorem containsChars_iff (s sub : List Char) :
    containsChars s sub = true ↔ sub <:+: s := by
  induction s with
  | nil => cases sub <;> simp [containsChars]
  | cons c cs ih =>
    simp only [containsChars, Bool.or_eq_true, ih, List.isPrefixOf_iff_prefix]
    exact List.infix_cons_iff.symm

/-- The test `strings.Contains(s, substr)` holds exactly when `substr` occurs in `s` as a
contiguous block of characters. -/
theorem stringsContains_iff (s substr : String) :
    stringsContains s substr = true ↔ substr.data <:+: s.data :=
  containsChars_iff s.data substr.data

/-! ## The restart functions -/

section
variable {σ δ ς : Type} (c : Clientset σ δ ς)

theorem restartDeployment_of_error {ns name : String} {w w1 : σ} {e : GoError}
    (h : c.getDeployment ns name w = (.error e, w1)) :
    restartDeployment c ns name w = ⟨some e, w1, [.getDeployment ns name]⟩ := by
  simp [restartDeployment, h]

theorem restartDeployment_of_ok {ns name : String} {w w1 : σ} {d : Deployment δ}
    (h : c.getDeployment ns name w = (.ok d, w1)) :
    restartDeployment c ns name w =
      ⟨(c.updateDeployment ns (d.annotate (c.now w1).1) (c.now w1).2).1,
        (c.updateDeployment ns (d.annotate (c.now w1).1) (c.now w1).2).2,
        [.getDeployment ns name, .updateDeployment ns (d.annotate (c.now w1).1)]⟩ := by
  simp [restartDeployment, h]

theorem restartStatefulSet_of_error {ns name : String} {w w1 : σ} {e : GoError}
    (h : c.getStatefulSet ns name w = (.error e, w1)) :
    restartStatefulSet c ns name w = ⟨some e, w1, [.getStatefulSet ns name]⟩ := by
  simp [restartStatefulSet, h]

theorem restartStatefulSet_of_ok {ns name : String} {w w1 : σ} {d : StatefulSet ς}
    (h : c.getStatefulSet ns name w = (.ok d, w1)) :
    restartStatefulSet c ns name w =
      ⟨(c.updateStatefulSet ns (d.annotate (c.now w1).1) (c.now w1).2).1,
        (c.updateStatefulSet ns (d.annotate (c.now w1).1) (c.now w1).2).2,
        [.getStatefulSet ns name, .updateStatefulSet ns (d.annotate (c.now w1).1)]⟩ := by
  simp [restartStatefulSet, h]

/-- The calls of `restartDeployment`: one get, then at most one update. -/
theorem restartDeployment_calls (ns name : String) (w : σ) :
    (restartDeployment c ns name w).calls = [.getDeployment ns name] ∨
    ∃ d, (restartDeployment c ns name w).calls =
      [.getDeployment ns name, .updateDeployment ns d] := by
  rcases h : c.getDeployment ns name w with ⟨r, w1⟩
  cases r with
  | error e => left; rw [restartDeployment_of_error c h]
  | ok d => right; exact ⟨_, by rw [restartDeployment_of_ok c h]⟩

theorem restartStatefulSet_calls (ns name : String) (w : σ) :
    (restartStatefulSet c ns name w).calls = [.getStatefulSet ns name] ∨
    ∃ d, (restartStatefulSet c ns name w).calls =
      [.getStatefulSet ns name, .updateStatefulSet ns d] := by
  rcases h : c.getStatefulSet ns name w with ⟨r, w1⟩
  cases r with
  | error e => left; rw [restartStatefulSet_of_error c h]
  | ok d => right; exact ⟨_, by rw [restartStatefulSet_of_ok c h]⟩

/-! ## The `switch` -/

theorem switchKind_deployment (pod : Pod) (o : OwnerReference) (s : LoopState σ δ ς)
    (h : o.Kind = "Deployment") :
    switchKind c pod o s =
      ⟨(restartDeployment c pod.Namespace o.Name s.world).err,
        (restartDeployment c pod.Namespace o.Name s.world).world,
        s.log ++ (restartDeployment c pod.Namespace o.Name s.world).calls ++
          [.restart .Deployment pod.Namespace o.Name
            (restartDeployment c pod.Namespace o.Name s.world).err]⟩ := by
  simp [switchKind, h]

theorem switchKind_statefulSet (pod : Pod) (o : OwnerReference) (s : LoopState σ δ ς)
    (h : o.Kind = "StatefulSet") :
    switchKind c pod o s =
      ⟨(restartStatefulSet c pod.Namespace o.Name s.world).err,
        (restartStatefulSet c pod.Namespace o.Name s.world).world,
        s.log ++ (restartStatefulSet c pod.Namespace o.Name s.world).calls ++
          [.restart .StatefulSet pod.Namespace o.Name
            (restartStatefulSet c pod.Namespace o.Name s.world).err]⟩ := by
  have h' : ¬ o.Kind = "Deployment" := by rw [h]; decide
  simp [switchKind, h]

theorem switchKind_other (pod : Pod) (o : OwnerReference) (s : LoopState σ δ ς)
    (h1 : o.Kind ≠ "Deployment") (h2 : o.Kind ≠ "StatefulSet") :
    switchKind c pod o s = s := by
  simp [switchKind, h1, h2]


/-! ## The log only grows, and the rest of the state does not depend on it -/

theorem switchKind_prepend (l : List (Event δ ς)) (pod : Pod) (o : OwnerReference)
    (s : LoopState σ δ ς) :
    switchKind c pod o (s.prepend l) = (switchKind c pod o s).prepend l := by
  by_cases h1 : o.Kind = "Deployment"
  · simp [switchKind_deployment c pod o _ h1, LoopState.prepend, List.append_assoc]
  · by_cases h2 : o.Kind = "StatefulSet"
    · simp [switchKind_statefulSet c pod o _ h2, LoopState.prepend, List.append_assoc]
    · simp [switchKind_other c pod o _ h1 h2]

theorem ownerRefStep_prepend (l : List (Event δ ς)) (pod : Pod) (s : LoopState σ δ ς)
    (o : OwnerReference) :
    ownerRefStep c pod (s.prepend l) o = (ownerRefStep c pod s o).prepend l := by
  unfold ownerRefStep
  rw [switchKind_prepend]
  simp [LoopState.prepend, List.append_assoc]

theorem ownerRefsLoop_prepend (l : List (Event δ ς)) (pod : Pod) (s : LoopState σ δ ς)
    (os : List OwnerReference) :
    ownerRefsLoop c pod (s.prepend l) os = (ownerRefsLoop c pod s os).prepend l := by
  induction os generalizing s with
  | nil => rfl
  | cons o os ih =>
    simp only [ownerRefsLoop, List.foldl_cons] at ih ⊢
    rw [ownerRefStep_prepend, ih]

theorem podStep_prepend (l : List (Event δ ς)) (s : LoopState σ δ ς) (pod : Pod) :
    podStep c (s.prepend l) pod = (podStep c s pod).prepend l := by
  unfold podStep
  split
  · split
    · exact ownerRefsLoop_prepend c l pod s _
    · rfl
  · rfl

theorem mainLoop_prepend (l : List (Event δ ς)) (s : LoopState σ δ ς) (pods : List Pod) :
    mainLoop c (s.prepend l) pods = (mainLoop c s pods).prepend l := by
  induction pods generalizing s with
  | nil => rfl
  | cons p ps ih =>
    simp only [mainLoop, List.foldl_cons] at ih ⊢
    rw [podStep_prepend, ih]

theorem mainLoop_append (s : LoopState σ δ ς) (ps qs : List Pod) :
    mainLoop c s (ps ++ qs) = mainLoop c (mainLoop c s ps) qs := by
  simp [mainLoop, List.foldl_append]

theorem mainLoop_cons (s : LoopState σ δ ς) (p : Pod) (ps : List Pod) :
    mainLoop c s (p :: ps) = mainLoop c (podStep c s p) ps := rfl

theorem ownerRefsLoop_append (pod : Pod) (s : LoopState σ δ ς) (os os' : List OwnerReference) :
    ownerRefsLoop c pod s (os ++ os') = ownerRefsLoop c pod (ownerRefsLoop c pod s os) os' := by
  simp [ownerRefsLoop, List.foldl_append]

theorem ownerRefsLoop_cons (pod : Pod) (s : LoopState σ δ ς) (o : OwnerReference)
    (os : List OwnerReference) :
    ownerRefsLoop c pod s (o :: os) = ownerRefsLoop c pod (ownerRefStep c pod s o) os := rfl

/-- For a pod whose name contains "database", the outer iteration is the inner loop. -/
theorem podStep_of_match (s : LoopState σ δ ς) (pod : Pod)
    (h : stringsContains pod.Name "database" = true) :
    podStep c s pod = ownerRefsLoop c pod s pod.OwnerReferences := by
  unfold podStep
  rw [if_pos h]
  split
  · rfl
  · rename_i hlen
    have : pod.OwnerReferences = [] := by
      cases hrefs : pod.OwnerReferences with
      | nil => rfl
      | cons o os => simp [hrefs] at hlen
    rw [this]; rfl

theorem podStep_of_no_match (s : LoopState σ δ ς) (pod : Pod)
    (h : stringsContains pod.Name "database" = false) :
    podStep c s pod = s := by
  simp [podStep, h]

/-! ## Restart attempts and get calls of the loop -/

theorem attempts_append (l l' : List (Event δ ς)) :
    attempts (l ++ l') = attempts l ++ attempts l' := by
  simp [attempts, List.filterMap_append]

theorem gets_append (l l' : List (Event δ ς)) : gets (l ++ l') = gets l ++ gets l' := by
  simp [gets, List.filterMap_append]

theorem attempts_restartDeployment (ns name : String) (w : σ) :
    attempts (restartDeployment c ns name w).calls = [] := by
  rcases restartDeployment_calls c ns name w with h | ⟨d, h⟩ <;> simp [h, attempts]

theorem attempts_restartStatefulSet (ns name : String) (w : σ) :
    attempts (restartStatefulSet c ns name w).calls = [] := by
  rcases restartStatefulSet_calls c ns name w with h | ⟨d, h⟩ <;> simp [h, attempts]

theorem gets_restartDeployment (ns name : String) (w : σ) :
    gets (restartDeployment c ns name w).calls = [⟨.Deployment, ns, name⟩] := by
  rcases restartDeployment_calls c ns name w with h | ⟨d, h⟩ <;> simp [h, gets]

theorem gets_restartStatefulSet (ns name : String) (w : σ) :
    gets (restartStatefulSet c ns name w).calls = [⟨.StatefulSet, ns, name⟩] := by
  rcases restartStatefulSet_calls c ns name w with h | ⟨d, h⟩ <;> simp [h, gets]

theorem attempts_outcomeLine (kind name : String) (e : Option GoError) :
    attempts [(outcomeLine kind name e : Event δ ς)] = [] := by
  cases e <;> rfl

theorem gets_outcomeLine (kind name : String) (e : Option GoError) :
    gets [(outcomeLine kind name e : Event δ ς)] = [] := by
  cases e <;> rfl

theorem attempts_switchKind (pod : Pod) (o : OwnerReference) (s : LoopState σ δ ς) :
    attempts (switchKind c pod o s).log = attempts s.log ++ (ownerTarget pod o).toList := by
  by_cases h1 : o.Kind = "Deployment"
  · rw [switchKind_deployment c pod o _ h1]
    simp only [attempts_append, attempts_restartDeployment, ownerTarget, h1, if_true,
      List.append_nil, Option.toList]
    rfl
  · by_cases h2 : o.Kind = "StatefulSet"
    · rw [switchKind_statefulSet c pod o _ h2]
      simp only [attempts_append, attempts_restartStatefulSet, ownerTarget, h1, h2, if_true,
        if_false, List.append_nil, Option.toList]
      rfl
    · rw [switchKind_other c pod o _ h1 h2]
      simp [ownerTarget, h1, h2]

theorem gets_switchKind (pod : Pod) (o : OwnerReference) (s : LoopState σ δ ς) :
    gets (switchKind c pod o s).log = gets s.log ++ (ownerTarget pod o).toList := by
  by_cases h1 : o.Kind = "Deployment"
  · rw [switchKind_deployment c pod o _ h1]
    simp only [gets_append, gets_restartDeployment, ownerTarget, h1, if_true, Option.toList]
    simp [gets]
  · by_cases h2 : o.Kind = "StatefulSet"
    · rw [switchKind_statefulSet c pod o _ h2]
      simp only [gets_append, gets_restartStatefulSet, ownerTarget, h1, h2, if_true,
        if_false, Option.toList]
      simp [gets]
    · rw [switchKind_other c pod o _ h1 h2]
      simp [ownerTarget, h1, h2]

theorem ownerRefStep_log (pod : Pod) (s : LoopState σ δ ς) (o : OwnerReference) :
    (ownerRefStep c pod s o).log =
      (switchKind c pod o s).log ++ [outcomeLine o.Kind o.Name (switchKind c pod o s).err] :=
  rfl

theorem attempts_ownerRefStep (pod : Pod) (s : LoopState σ δ ς) (o : OwnerReference) :
    attempts (ownerRefStep c pod s o).log = attempts s.log ++ (ownerTarget pod o).toList := by
  rw [ownerRefStep_log, attempts_append, attempts_outcomeLine, List.append_nil,
    attempts_switchKind]

theorem gets_ownerRefStep (pod : Pod) (s : LoopState σ δ ς) (o : OwnerReference) :
    gets (ownerRefStep c pod s o).log = gets s.log ++ (ownerTarget pod o).toList := by
  rw [ownerRefStep_log, gets_append, gets_outcomeLine, List.append_nil, gets_switchKind]

theorem attempts_ownerRefsLoop (pod : Pod) (s : LoopState σ δ ς) (os : List OwnerReference) :
    attempts (ownerRefsLoop c pod s os).log =
      attempts s.log ++ os.filterMap (ownerTarget pod) := by
  induction os generalizing s with
  | nil => simp [ownerRefsLoop]
  | cons o os ih =>
    rw [ownerRefsLoop_cons, ih, attempts_ownerRefStep]
    cases h : ownerTarget pod o <;> simp [List.filterMap_cons, h]

theorem gets_ownerRefsLoop (pod : Pod) (s : LoopState σ δ ς) (os : List OwnerReference) :
    gets (ownerRefsLoop c pod s os).log = gets s.log ++ os.filterMap (ownerTarget pod) := by
  induction os generalizing s with
  | nil => simp [ownerRefsLoop]
  | cons o os ih =>
    rw [ownerRefsLoop_cons, ih, gets_ownerRefStep]
    cases h : ownerTarget pod o <;> simp [List.filterMap_cons, h]

theorem targets_cons (pod : Pod) (pods : List Pod) :
    targets (pod :: pods) =
      (if stringsContains pod.Name "database" then
        pod.OwnerReferences.filterMap (ownerTarget pod) else []) ++ targets pods := by
  by_cases h : stringsContains pod.Name "database" = true
  · simp [targets, List.filter_cons, h]
  · simp [targets, List.filter_cons, h]

theorem attempts_mainLoop (s : LoopState σ δ ς) (pods : List Pod) :
    attempts (mainLoop c s pods).log = attempts s.log ++ targets pods := by
  induction pods generalizing s with
  | nil => simp [mainLoop, targets]
  | cons p ps ih =>
    rw [mainLoop_cons, ih, targets_cons]
    by_cases h : stringsContains p.Name "database" = true
    · rw [podStep_of_match c s p h, attempts_ownerRefsLoop, if_pos h, List.append_assoc]
    · have h' : stringsContains p.Name "database" = false := by simpa using h
      rw [podStep_of_no_match c s p h']
      simp [h']

theorem gets_mainLoop (s : LoopState σ δ ς) (pods : List Pod) :
    gets (mainLoop c s pods).log = gets s.log ++ targets pods := by
  induction pods generalizing s with
  | nil => simp [mainLoop, targets]
  | cons p ps ih =>
    rw [mainLoop_cons, ih, targets_cons]
    by_cases h : stringsContains p.Name "database" = true
    · rw [podStep_of_match c s p h, gets_ownerRefsLoop, if_pos h, List.append_assoc]
    · have h' : stringsContains p.Name "database" = false := by simpa using h
      rw [podStep_of_no_match c s p h']
      simp [h']

end
section
variable {σ δ ς : Type} (c : Clientset σ δ ς)

theorem attempts_stderrEvents (lines : List String) :
    attempts (stderrEvents lines : List (Event δ ς)) = [] := by
  simp [stderrEvents, attempts]

theorem gets_stderrEvents (lines : List String) :
    gets (stderrEvents lines : List (Event δ ς)) = [] := by
  simp [stderrEvents, gets]

/-- When the flags parse and the setup and the listing succeed, `main` is its loop run from
the state left by the listing, and it exits with code 0. -/
theorem main_of_listed {κ : Type} (setup : Setup σ δ ς κ) (kubeconfig ns : String) (w w1 : σ)
    (out out' : List String) (config : κ) (clientset : Clientset σ δ ς) (pods : List Pod)
    (hflags : setup.flagParse = .parsed kubeconfig ns)
    (hconfig : setup.buildConfigFromFlags "" kubeconfig = (out, .ok config))
    (hclient : setup.newForConfig config = (out', .ok clientset))
    (hlist : clientset.listPods ns w = (.ok pods, w1)) :
    main setup w =
      ⟨0,
        (mainLoop clientset
          ⟨none, w1, stderrEvents out ++ stderrEvents out' ++ [.listPods ns]⟩ pods).world,
        (mainLoop clientset
          ⟨none, w1, stderrEvents out ++ stderrEvents out' ++ [.listPods ns]⟩ pods).log⟩ := by
  simp [main, hflags, hconfig, hclient, hlist]

/-- The loop of `main` starts in `listedState`. -/
theorem main_log_of_listed {κ : Type} (setup : Setup σ δ ς κ) (kubeconfig ns : String)
    (w w1 : σ) (out out' : List String) (config : κ) (clientset : Clientset σ δ ς)
    (pods : List Pod)
    (hflags : setup.flagParse = .parsed kubeconfig ns)
    (hconfig : setup.buildConfigFromFlags "" kubeconfig = (out, .ok config))
    (hclient : setup.newForConfig config = (out', .ok clientset))
    (hlist : clientset.listPods ns w = (.ok pods, w1)) :
    (main setup w).log = (mainLoop clientset (listedState w1 out out' ns) pods).log := by
  rw [main_of_listed setup kubeconfig ns w w1 out out' config clientset pods hflags hconfig
    hclient hlist]
  rfl

theorem calls_append (l l' : List (Event δ ς)) : calls (l ++ l') = calls l ++ calls l' := by
  simp [calls]

theorem calls_outcomeLine (kind name : String) (e : Option GoError) :
    calls [(outcomeLine kind name e : Event δ ς)] = [] := by
  cases e <;> rfl

/-- Over owner references that are all of other kinds, the inner loop only prints: one line
per owner reference, all from the same unchanged `err`. -/
theorem ownerRefsLoop_other (pod : Pod) (s : LoopState σ δ ς) (os : List OwnerReference)
    (h : ∀ o ∈ os, o.Kind ≠ "Deployment" ∧ o.Kind ≠ "StatefulSet") :
    ownerRefsLoop c pod s os =
      ⟨s.err, s.world, s.log ++ os.map fun o => outcomeLine o.Kind o.Name s.err⟩ := by
  induction os generalizing s with
  | nil => simp [ownerRefsLoop]
  | cons o os ih =>
    have ho := h o (List.mem_cons_self o os)
    rw [ownerRefsLoop_cons, ih _ (fun o' ho' => h o' (List.mem_cons_of_mem o ho'))]
    simp [ownerRefStep, switchKind_other c pod o s ho.1 ho.2]

theorem calls_map_outcomeLine (os : List OwnerReference) (e : Option GoError) :
    calls (os.map fun o => (outcomeLine o.Kind o.Name e : Event δ ς)) = [] := by
  induction os with
  | nil => rfl
  | cons o os ih =>
    rw [List.map_cons, ← List.singleton_append, calls_append, calls_outcomeLine, ih]
    rfl

theorem attempts_calls (l : List (Event δ ς)) : attempts (calls l) = attempts l := by
  induction l with
  | nil => rfl
  | cons e l ih =>
    cases e <;> simp_all [attempts, calls, Event.isPrint, List.filter_cons]

end

/-- C1: after a successful listing, the restart attempts of `main`, in order, are exactly the
Controller Targets of the listed pods: one per owner reference of kind Deployment or
StatefulSet on each pod whose name contains "database", in list order, with no
de-duplication; and the get calls issued are those of the same targets, a Deployment target
through `restartDeployment` and a StatefulSet target through `restartStatefulSet`. -/
theorem main_attempts_eq_targets {σ δ ς κ : Type} (setup : Setup σ δ ς κ)
    (kubeconfig ns : String) (w w1 : σ) (out out' : List String) (config : κ)
    (clientset : Clientset σ δ ς) (pods : List Pod)
    (hflags : setup.flagParse = .parsed kubeconfig ns)
    (hconfig : setup.buildConfigFromFlags "" kubeconfig = (out, .ok config))
    (hclient : setup.newForConfig config = (out', .ok clientset))
    (hlist : clientset.listPods ns w = (.ok pods, w1)) :
    attempts (main setup w).log = targets pods ∧
    gets (main setup w).log = targets pods := by
  rw [main_of_listed setup kubeconfig ns w w1 out out' config clientset pods hflags hconfig
    hclient hlist]
  constructor
  · rw [attempts_mainLoop]
    simp only [attempts_append, attempts_stderrEvents, List.nil_append]
    rfl
  · rw [gets_mainLoop]
    simp only [gets_append, gets_stderrEvents, List.nil_append]
    rfl

/-- Scenario A: in namespace "prod", the pods database-primary-0 (owned by the StatefulSet
database) and web-1 (owned by the Deployment web) give the single attempt
(StatefulSet, prod, database). -/
theorem main_attempts_eq_targets_witness :
    memClient.listPods "prod" worldA = (.ok worldA.pods, worldA) ∧
    attempts (main (memSetup "" "prod") worldA).log = [⟨.StatefulSet, "prod", "database"⟩] :=
  ⟨rfl,
    (main_attempts_eq_targets (memSetup "" "prod") "" "prod" worldA worldA [] [] () memClient
      worldA.pods rfl rfl rfl rfl).1.trans (by decide)⟩

/-- A controller that owns two matching pods is a target twice. -/
theorem targets_not_deduplicated :
    targets [⟨"database-0", "prod", [⟨"StatefulSet", "database"⟩]⟩,
      ⟨"database-1", "prod", [⟨"StatefulSet", "database"⟩]⟩] =
      [⟨.StatefulSet, "prod", "database"⟩, ⟨.StatefulSet, "prod", "database"⟩] := by
  decide

/-- C2: a pod whose name does not contain "database" is skipped whatever its owner
references are: its iteration leaves the state (the log, the world and `err`) as it was, and
removing the pod from the listed pods leaves the whole run of the loop unchanged, so no
restart attempt, no get or update call and no printed line is due to it. -/
theorem mainLoop_skips_unmatched_pod {σ δ ς : Type} (c : Clientset σ δ ς)
    (s : LoopState σ δ ς) (before after : List Pod) (pod : Pod)
    (h : stringsContains pod.Name "database" = false) :
    podStep c s pod = s ∧
    mainLoop c s (before ++ pod :: after) = mainLoop c s (before ++ after) := by
  refine ⟨podStep_of_no_match c s pod h, ?_⟩
  rw [mainLoop_append, mainLoop_cons, podStep_of_no_match c _ pod h, ← mainLoop_append]

/-- The pod "Database-0" (capital D), owned by a Deployment, is skipped: the test is
case-sensitive. -/
theorem mainLoop_skips_unmatched_pod_witness :
    stringsContains "Database-0" "database" = false ∧
    (mainLoop memClient ⟨none, worldA, []⟩
      (worldA.pods ++ ⟨"Database-0", "prod", [⟨"Deployment", "web"⟩]⟩ :: [])).log =
      (mainLoop memClient ⟨none, worldA, []⟩ (worldA.pods ++ [])).log :=
  ⟨by decide,
    congrArg LoopState.log
      (mainLoop_skips_unmatched_pod memClient ⟨none, worldA, []⟩ worldA.pods []
        ⟨"Database-0", "prod", [⟨"Deployment", "web"⟩]⟩ (by decide)).2⟩

/-- C3: for a pod whose name contains "database" and whose owner references are all of kinds
other than "Deployment" and "StatefulSet" (or that has none), the loop calls neither restart
function and issues no get or update: the iteration leaves the world and `err` as they were
and adds nothing to the log but printed lines, and removing the pod from the listed pods
leaves the calls of the whole loop and the final world unchanged. -/
theorem podStep_other_kinds_no_restart {σ δ ς : Type} (c : Clientset σ δ ς)
    (s : LoopState σ δ ς) (before after : List Pod) (pod : Pod)
    (hmatch : stringsContains pod.Name "database" = true)
    (hkinds : ∀ o ∈ pod.OwnerReferences, o.Kind ≠ "Deployment" ∧ o.Kind ≠ "StatefulSet") :
    (podStep c s pod).world = s.world ∧ (podStep c s pod).err = s.err ∧
    calls (podStep c s pod).log = calls s.log ∧
    attempts (podStep c s pod).log = attempts s.log ∧
    calls (mainLoop c s (before ++ pod :: after)).log =
      calls (mainLoop c s (before ++ after)).log ∧
    (mainLoop c s (before ++ pod :: after)).world = (mainLoop c s (before ++ after)).world := by
  have hstep : ∀ s' : LoopState σ δ ς, podStep c s' pod =
      ⟨s'.err, s'.world,
        s'.log ++ pod.OwnerReferences.map fun o => outcomeLine o.Kind o.Name s'.err⟩ := by
    intro s'
    rw [podStep_of_match c s' pod hmatch, ownerRefsLoop_other c pod s' _ hkinds]
  have hcalls : ∀ s' : LoopState σ δ ς, calls (podStep c s' pod).log = calls s'.log := by
    intro s'
    rw [hstep s', calls_append, calls_map_outcomeLine, List.append_nil]
  refine ⟨by rw [hstep s], by rw [hstep s], hcalls s, ?_, ?_, ?_⟩
  · rw [← attempts_calls, hcalls s, attempts_calls]
  · rw [mainLoop_append, mainLoop_cons, mainLoop_append]
    generalize mainLoop c s before = s1
    have e1 : podStep c s1 pod = (⟨s1.err, s1.world, []⟩ : LoopState σ δ ς).prepend
        (s1.log ++ pod.OwnerReferences.map fun o => outcomeLine o.Kind o.Name s1.err) := by
      rw [hstep s1]; simp [LoopState.prepend]
    have e2 : s1 = (⟨s1.err, s1.world, []⟩ : LoopState σ δ ς).prepend s1.log := by
      simp [LoopState.prepend]
    rw [e1, mainLoop_prepend]
    conv_rhs => rw [e2, mainLoop_prepend]
    simp only [LoopState.prepend, calls_append, calls_map_outcomeLine, List.append_nil]
  · rw [mainLoop_append, mainLoop_cons, mainLoop_append]
    generalize mainLoop c s before = s1
    have e1 : podStep c s1 pod = (⟨s1.err, s1.world, []⟩ : LoopState σ δ ς).prepend
        (s1.log ++ pod.OwnerReferences.map fun o => outcomeLine o.Kind o.Name s1.err) := by
      rw [hstep s1]; simp [LoopState.prepend]
    have e2 : s1 = (⟨s1.err, s1.world, []⟩ : LoopState σ δ ς).prepend s1.log := by
      simp [LoopState.prepend]
    rw [e1, mainLoop_prepend]
    conv_rhs => rw [e2, mainLoop_prepend]
    simp only [LoopState.prepend]

/-- Scenario B: the pod "database-cache-7f9", whose only owner is the ReplicaSet "rs", gives
no restart attempt, and the run of `main` on it makes no call but the listing. -/
theorem podStep_other_kinds_no_restart_witness :
    stringsContains podB.Name "database" = true ∧
    attempts (podStep memClient ⟨none, worldB, [.listPods ""]⟩ podB).log = [] ∧
    calls (main (memSetup "" "") worldB).log = [.listPods ""] :=
  ⟨by decide,
    (podStep_other_kinds_no_restart memClient ⟨none, worldB, [.listPods ""]⟩ [] [] podB
      (by decide) (by decide)).2.2.2.1.trans (by decide),
    (podStep_other_kinds_no_restart memClient ⟨none, worldB, [.listPods ""]⟩ [] [] podB
      (by decide) (by decide)).2.2.2.2.1.trans (by decide)⟩

/-- C5: when the get succeeds, a restart function makes exactly one update call, on an object
that is the fetched object with the pod-template annotation
"kubectl.kubernetes.io/restartedAt" set to the clock reading: the name and every other field
are those fetched, every other annotation key reads as it did in the fetched map, and a nil
fetched map becomes the map with that one key.  The error returned and the world left are
those of the client's update applied to that object, in the world left by the clock reading.
This holds for `restartDeployment` and for `restartStatefulSet`. -/
theorem restart_update_changes_only_marker {σ δ ς : Type} (c : Clientset σ δ ς) :
    (∀ (ns name : String) (w w1 : σ) (d : Deployment δ),
      c.getDeployment ns name w = (.ok d, w1) →
      ∃ d' m', restartDeployment c ns name w =
          ⟨(c.updateDeployment ns d' (c.now w1).2).1,
            (c.updateDeployment ns d' (c.now w1).2).2,
            [.getDeployment ns name, .updateDeployment ns d']⟩ ∧
        d'.Name = d.Name ∧ d'.Other = d.Other ∧ d'.TemplateAnnotations = some m' ∧
        m'.get restartedAt = some (c.now w1).1 ∧
        (∀ k, k ≠ restartedAt → m'.get k = (d.TemplateAnnotations.getD []).get k) ∧
        (d.TemplateAnnotations = none → m' = [(restartedAt, (c.now w1).1)])) ∧
    (∀ (ns name : String) (w w1 : σ) (sts : StatefulSet ς),
      c.getStatefulSet ns name w = (.ok sts, w1) →
      ∃ sts' m', restartStatefulSet c ns name w =
          ⟨(c.updateStatefulSet ns sts' (c.now w1).2).1,
            (c.updateStatefulSet ns sts' (c.now w1).2).2,
            [.getStatefulSet ns name, .updateStatefulSet ns sts']⟩ ∧
        sts'.Name = sts.Name ∧ sts'.Other = sts.Other ∧ sts'.TemplateAnnotations = some m' ∧
        m'.get restartedAt = some (c.now w1).1 ∧
        (∀ k, k ≠ restartedAt → m'.get k = (sts.TemplateAnnotations.getD []).get k) ∧
        (sts.TemplateAnnotations = none → m' = [(restartedAt, (c.now w1).1)])) := by
  constructor
  · intro ns name w w1 d hget
    refine ⟨d.annotate (c.now w1).1, _, restartDeployment_of_ok c hget, rfl, rfl, rfl,
      StringMap.get_set_self _ _ _, ?_, ?_⟩
    · intro k hk
      rw [StringMap.get_set_of_ne _ _ _ _ hk]
      cases d.TemplateAnnotations <;> rfl
    · intro hnil
      rw [hnil]; rfl
  · intro ns name w w1 sts hget
    refine ⟨sts.annotate (c.now w1).1, _, restartStatefulSet_of_ok c hget, rfl, rfl,
      rfl, StringMap.get_set_self _ _ _, ?_, ?_⟩
    · intro k hk
      rw [StringMap.get_set_of_ne _ _ _ _ hk]
      cases sts.TemplateAnnotations <;> rfl
    · intro hnil
      rw [hnil]; rfl

/-- In scenario A the Deployment "web" has no annotation map and the StatefulSet "database"
has the annotation app=db: the objects written are those fetched with the marker added, as
the only key of a new map for "web" and beside app=db for "database"; the call returns nil
and the store of the cluster then holds the written object. -/
theorem restart_update_changes_only_marker_witness :
    restartDeployment memClient "prod" "web" worldA =
      ⟨none,
        { worldA with
          deployments := [(("prod", "web"),
            ⟨"web", some [(restartedAt, "2026-01-01 00:00:01 +0000 UTC")], ()⟩)]
          clock := ["2026-01-01 00:00:02 +0000 UTC"] },
        [.getDeployment "prod" "web",
          .updateDeployment "prod"
            ⟨"web", some [(restartedAt, "2026-01-01 00:00:01 +0000 UTC")], ()⟩]⟩ ∧
    restartStatefulSet memClient "prod" "database" worldA =
      ⟨none,
        { worldA with
          statefulSets := [(("prod", "database"),
            ⟨"database",
              some [("app", "db"), (restartedAt, "2026-01-01 00:00:01 +0000 UTC")], ()⟩)]
          clock := ["2026-01-01 00:00:02 +0000 UTC"] },
        [.getStatefulSet "prod" "database",
          .updateStatefulSet "prod"
            ⟨"database",
              some [("app", "db"), (restartedAt, "2026-01-01 00:00:01 +0000 UTC")], ()⟩]⟩ ∧
    (∃ d' m', restartDeployment memClient "prod" "web" worldA =
        ⟨(memClient.updateDeployment "prod" d' (memClient.now worldA).2).1,
          (memClient.updateDeployment "prod" d' (memClient.now worldA).2).2,
          [.getDeployment "prod" "web", .updateDeployment "prod" d']⟩ ∧
      d'.Name = "web" ∧ d'.Other = () ∧ d'.TemplateAnnotations = some m' ∧
      m'.get restartedAt = some "2026-01-01 00:00:01 +0000 UTC" ∧
      (∀ k, k ≠ restartedAt → m'.get k = StringMap.get [] k) ∧
      ((none : Option StringMap) = none →
        m' = [(restartedAt, "2026-01-01 00:00:01 +0000 UTC")])) ∧
    (∃ sts' m', restartStatefulSet memClient "prod" "database" worldA =
        ⟨(memClient.updateStatefulSet "prod" sts' (memClient.now worldA).2).1,
          (memClient.updateStatefulSet "prod" sts' (memClient.now worldA).2).2,
          [.getStatefulSet "prod" "database", .updateStatefulSet "prod" sts']⟩ ∧
      sts'.Name = "database" ∧ sts'.Other = () ∧ sts'.TemplateAnnotations = some m' ∧
      m'.get restartedAt = some "2026-01-01 00:00:01 +0000 UTC" ∧
      (∀ k, k ≠ restartedAt → m'.get k = StringMap.get [("app", "db")] k) ∧
      (some [("app", "db")] = none →
        m' = [(restartedAt, "2026-01-01 00:00:01 +0000 UTC")])) :=
  ⟨rfl, rfl,
    (restart_update_changes_only_marker memClient).1 "prod" "web" worldA worldA
      ⟨"web", none, ()⟩ rfl,
    (restart_update_changes_only_marker memClient).2 "prod" "database" worldA worldA
      ⟨"database", some [("app", "db")], ()⟩ rfl⟩

/-- C7: when the get fails, a restart function returns exactly the error of the get, makes no
other call (no update) and leaves the world as the get left it, and the iteration of `main`
for that target adds to the log the get, the failed attempt and one line on stderr with the
kind, the name and the error of the get; when the get succeeds, the result of the restart
function is the result of the update.  This holds for `restartDeployment` and for
`restartStatefulSet`. -/
theorem restart_returns_get_error {σ δ ς : Type} (c : Clientset σ δ ς) :
    (∀ (ns name : String) (w w1 : σ) (e : GoError),
      c.getDeployment ns name w = (.error e, w1) →
      restartDeployment c ns name w = ⟨some e, w1, [.getDeployment ns name]⟩ ∧
      ∀ (pod : Pod) (o : OwnerReference) (s : LoopState σ δ ς),
        pod.Namespace = ns → o.Name = name → s.world = w → o.Kind = "Deployment" →
        ownerRefStep c pod s o =
          ⟨some e, w1, s.log ++ [.getDeployment ns name,
            .restart .Deployment ns name (some e),
            .stderr ("Error restarting Deployment " ++ name ++ ": " ++ e ++ "\n")]⟩) ∧
    (∀ (ns name : String) (w w1 : σ) (e : GoError),
      c.getStatefulSet ns name w = (.error e, w1) →
      restartStatefulSet c ns name w = ⟨some e, w1, [.getStatefulSet ns name]⟩ ∧
      ∀ (pod : Pod) (o : OwnerReference) (s : LoopState σ δ ς),
        pod.Namespace = ns → o.Name = name → s.world = w → o.Kind = "StatefulSet" →
        ownerRefStep c pod s o =
          ⟨some e, w1, s.log ++ [.getStatefulSet ns name,
            .restart .StatefulSet ns name (some e),
            .stderr ("Error restarting StatefulSet " ++ name ++ ": " ++ e ++ "\n")]⟩) ∧
    (∀ (ns name : String) (w w1 : σ) (d : Deployment δ),
      c.getDeployment ns name w = (.ok d, w1) →
      (restartDeployment c ns name w).err =
        (c.updateDeployment ns (d.annotate (c.now w1).1) (c.now w1).2).1) ∧
    (∀ (ns name : String) (w w1 : σ) (d : StatefulSet ς),
      c.getStatefulSet ns name w = (.ok d, w1) →
      (restartStatefulSet c ns name w).err =
        (c.updateStatefulSet ns (d.annotate (c.now w1).1) (c.now w1).2).1) := by
  refine ⟨?_, ?_, ?_, ?_⟩
  · intro ns name w w1 e hget
    refine ⟨restartDeployment_of_error c hget, ?_⟩
    intro pod o s hns hname hw hk
    unfold ownerRefStep
    rw [switchKind_deployment c pod o s hk, hns, hname, hw, restartDeployment_of_error c hget]
    simp [outcomeLine, hk]
  · intro ns name w w1 e hget
    refine ⟨restartStatefulSet_of_error c hget, ?_⟩
    intro pod o s hns hname hw hk
    unfold ownerRefStep
    rw [switchKind_statefulSet c pod o s hk, hns, hname, hw, restartStatefulSet_of_error c hget]
    simp [outcomeLine, hk]
  · intro ns name w w1 d h
    rw [restartDeployment_of_ok c h]
  · intro ns name w w1 d h
    rw [restartStatefulSet_of_ok c h]

/-- Scenario C: the get of (Deployment, prod, ghost) answers not-found; `main` issues the
get and no update, prints one failure line for "Deployment ghost" with the not-found error,
and exits with code 0. -/
theorem restart_returns_get_error_witness :
    memClient.getDeployment "prod" "ghost" worldC =
      (.error "deployments.apps \"ghost\" not found", worldC) ∧
    restartDeployment memClient "prod" "ghost" worldC =
      ⟨some "deployments.apps \"ghost\" not found", worldC,
        [.getDeployment "prod" "ghost"]⟩ ∧
    (main (memSetup "" "prod") worldC).log =
      [.listPods "prod", .getDeployment "prod" "ghost",
        .restart .Deployment "prod" "ghost" (some "deployments.apps \"ghost\" not found"),
        .stderr "Error restarting Deployment ghost: deployments.apps \"ghost\" not found\n"] ∧
    getsAndUpdates (main (memSetup "" "prod") worldC).log = [.getDeployment "prod" "ghost"] ∧
    (main (memSetup "" "prod") worldC).world = worldC ∧
    (main (memSetup "" "prod") worldC).exitCode = 0 :=
  ⟨rfl,
    ((restart_returns_get_error memClient).1 "prod" "ghost" worldC worldC
      "deployments.apps \"ghost\" not found" rfl).1,
    (congrArg LoopState.log
      (((restart_returns_get_error memClient).1 "prod" "ghost" worldC worldC
        "deployments.apps \"ghost\" not found" rfl).2
        ⟨"database-0", "prod", [⟨"Deployment", "ghost"⟩]⟩ ⟨"Deployment", "ghost"⟩
        ⟨none, worldC, [.listPods "prod"]⟩ rfl rfl rfl rfl)).trans (by decide),
    by decide, by decide, by decide⟩

theorem deployment_annotate_annotate {δ : Type} (d : Deployment δ) (t t' : String) :
    (d.annotate t).annotate t' = d.annotate t' := by
  simp [Deployment.annotate, StringMap.set_set]

theorem statefulSet_annotate_annotate {ς : Type} (d : StatefulSet ς) (t t' : String) :
    (d.annotate t).annotate t' = d.annotate t' := by
  simp [StatefulSet.annotate, StringMap.set_set]

theorem deployment_keys_annotate {δ : Type} (d : Deployment δ) (t t' : String) :
    ((d.annotate t').TemplateAnnotations.getD []).keys =
      ((d.annotate t).TemplateAnnotations.getD []).keys := by
  cases h : d.TemplateAnnotations with
  | none => simp [Deployment.annotate, h, StringMap.set, StringMap.keys]
  | some m =>
    simp only [Deployment.annotate, h, Option.getD_some]
    rw [← StringMap.keys_set_set m restartedAt t t', StringMap.set_set]

theorem statefulSet_keys_annotate {ς : Type} (d : StatefulSet ς) (t t' : String) :
    ((d.annotate t').TemplateAnnotations.getD []).keys =
      ((d.annotate t).TemplateAnnotations.getD []).keys := by
  cases h : d.TemplateAnnotations with
  | none => simp [StatefulSet.annotate, h, StringMap.set, StringMap.keys]
  | some m =>
    simp only [StatefulSet.annotate, h, Option.getD_some]
    rw [← StringMap.keys_set_set m restartedAt t t', StringMap.set_set]

theorem deployment_marker_annotate {δ : Type} (d : Deployment δ) (t : String) :
    ((d.annotate t).TemplateAnnotations.getD []).get restartedAt = some t := by
  simp [Deployment.annotate, StringMap.get_set_self]

theorem statefulSet_marker_annotate {ς : Type} (d : StatefulSet ς) (t : String) :
    ((d.annotate t).TemplateAnnotations.getD []).get restartedAt = some t := by
  simp [StatefulSet.annotate, StringMap.get_set_self]

/-- C8: two restarts in succession of the same target, over a client whose updates succeed
and whose second get returns the object written by the first restart, both return nil; the
second writes the fetched object with the marker overwritten by the second clock reading,
which is the object a single restart at the second reading writes, with the same annotation
keys as after the first restart; and the two marker values differ when the two clock readings
differ.  This holds for `restartDeployment` and for `restartStatefulSet`. -/
theorem restart_twice_overwrites_marker {σ δ ς : Type} (c : Clientset σ δ ς) :
    (∀ (ns name : String) (w0 w1 w2 w3 w4 w5 w6 : σ) (d : Deployment δ) (t1 t2 : String),
      c.getDeployment ns name w0 = (.ok d, w1) →
      c.now w1 = (t1, w2) →
      c.updateDeployment ns (d.annotate t1) w2 = (none, w3) →
      c.getDeployment ns name w3 = (.ok (d.annotate t1), w4) →
      c.now w4 = (t2, w5) →
      c.updateDeployment ns ((d.annotate t1).annotate t2) w5 = (none, w6) →
      restartDeployment c ns name w0 =
        ⟨none, w3, [.getDeployment ns name, .updateDeployment ns (d.annotate t1)]⟩ ∧
      restartDeployment c ns name (restartDeployment c ns name w0).world =
        ⟨none, w6, [.getDeployment ns name, .updateDeployment ns (d.annotate t2)]⟩ ∧
      ((d.annotate t2).TemplateAnnotations.getD []).keys =
        ((d.annotate t1).TemplateAnnotations.getD []).keys ∧
      ((d.annotate t1).TemplateAnnotations.getD []).get restartedAt = some t1 ∧
      ((d.annotate t2).TemplateAnnotations.getD []).get restartedAt = some t2 ∧
      (t1 ≠ t2 → ((d.annotate t1).TemplateAnnotations.getD []).get restartedAt ≠
        ((d.annotate t2).TemplateAnnotations.getD []).get restartedAt)) ∧
    (∀ (ns name : String) (w0 w1 w2 w3 w4 w5 w6 : σ) (d : StatefulSet ς) (t1 t2 : String),
      c.getStatefulSet ns name w0 = (.ok d, w1) →
      c.now w1 = (t1, w2) →
      c.updateStatefulSet ns (d.annotate t1) w2 = (none, w3) →
      c.getStatefulSet ns name w3 = (.ok (d.annotate t1), w4) →
      c.now w4 = (t2, w5) →
      c.updateStatefulSet ns ((d.annotate t1).annotate t2) w5 = (none, w6) →
      restartStatefulSet c ns name w0 =
        ⟨none, w3, [.getStatefulSet ns name, .updateStatefulSet ns (d.annotate t1)]⟩ ∧
      restartStatefulSet c ns name (restartStatefulSet c ns name w0).world =
        ⟨none, w6, [.getStatefulSet ns name, .updateStatefulSet ns (d.annotate t2)]⟩ ∧
      ((d.annotate t2).TemplateAnnotations.getD []).keys =
        ((d.annotate t1).TemplateAnnotations.getD []).keys ∧
      ((d.annotate t1).TemplateAnnotations.getD []).get restartedAt = some t1 ∧
      ((d.annotate t2).TemplateAnnotations.getD []).get restartedAt = some t2 ∧
      (t1 ≠ t2 → ((d.annotate t1).TemplateAnnotations.getD []).get restartedAt ≠
        ((d.annotate t2).TemplateAnnotations.getD []).get restartedAt)) := by
  constructor
  · intro ns name w0 w1 w2 w3 w4 w5 w6 d t1 t2 hget1 hnow1 hupd1 hget2 hnow2 hupd2
    have r1 : restartDeployment c ns name w0 =
        ⟨none, w3, [.getDeployment ns name, .updateDeployment ns (d.annotate t1)]⟩ := by
      rw [restartDeployment_of_ok c hget1, hnow1, hupd1]
    have r2 : restartDeployment c ns name w3 =
        ⟨none, w6, [.getDeployment ns name, .updateDeployment ns (d.annotate t2)]⟩ := by
      rw [restartDeployment_of_ok c hget2, hnow2, hupd2, deployment_annotate_annotate]
    refine ⟨r1, by rw [r1]; exact r2, deployment_keys_annotate d t1 t2,
      deployment_marker_annotate d t1, deployment_marker_annotate d t2, ?_⟩
    intro hne
    rw [deployment_marker_annotate, deployment_marker_annotate]
    exact fun h => hne (Option.some.inj h)
  · intro ns name w0 w1 w2 w3 w4 w5 w6 d t1 t2 hget1 hnow1 hupd1 hget2 hnow2 hupd2
    have r1 : restartStatefulSet c ns name w0 =
        ⟨none, w3, [.getStatefulSet ns name, .updateStatefulSet ns (d.annotate t1)]⟩ := by
      rw [restartStatefulSet_of_ok c hget1, hnow1, hupd1]
    have r2 : restartStatefulSet c ns name w3 =
        ⟨none, w6, [.getStatefulSet ns name, .updateStatefulSet ns (d.annotate t2)]⟩ := by
      rw [restartStatefulSet_of_ok c hget2, hnow2, hupd2, statefulSet_annotate_annotate]
    refine ⟨r1, by rw [r1]; exact r2, statefulSet_keys_annotate d t1 t2,
      statefulSet_marker_annotate d t1, statefulSet_marker_annotate d t2, ?_⟩
    intro hne
    rw [statefulSet_marker_annotate, statefulSet_marker_annotate]
    exact fun h => hne (Option.some.inj h)

/-- In scenario A, restarting the Deployment "web" twice, and the StatefulSet "database"
twice, succeeds both times, and the second update carries the second clock reading as the
only marker value. -/
theorem restart_twice_overwrites_marker_witness :
    (restartDeployment memClient "prod" "web" worldA).err = none ∧
    restartDeployment memClient "prod" "web"
        (restartDeployment memClient "prod" "web" worldA).world =
      ⟨none,
        { worldA with
          deployments := [(("prod", "web"),
            ⟨"web", some [(restartedAt, "2026-01-01 00:00:02 +0000 UTC")], ()⟩)]
          clock := [] },
        [.getDeployment "prod" "web",
          .updateDeployment "prod"
            ⟨"web", some [(restartedAt, "2026-01-01 00:00:02 +0000 UTC")], ()⟩]⟩ ∧
    (restartStatefulSet memClient "prod" "database" worldA).err = none ∧
    restartStatefulSet memClient "prod" "database"
        (restartStatefulSet memClient "prod" "database" worldA).world =
      ⟨none,
        { worldA with
          statefulSets := [(("prod", "database"),
            ⟨"database",
              some [("app", "db"), (restartedAt, "2026-01-01 00:00:02 +0000 UTC")], ()⟩)]
          clock := [] },
        [.getStatefulSet "prod" "database",
          .updateStatefulSet "prod"
            ⟨"database",
              some [("app", "db"), (restartedAt, "2026-01-01 00:00:02 +0000 UTC")], ()⟩]⟩ := by
  have T := (restart_twice_overwrites_marker memClient).1
    "prod" "web" worldA worldA (memClient.now worldA).2
    (restartDeployment memClient "prod" "web" worldA).world
    (restartDeployment memClient "prod" "web" worldA).world
    (memClient.now (restartDeployment memClient "prod" "web" worldA).world).2
    (restartDeployment memClient "prod" "web"
      (restartDeployment memClient "prod" "web" worldA).world).world
    ⟨"web", none, ()⟩ "2026-01-01 00:00:01 +0000 UTC" "2026-01-01 00:00:02 +0000 UTC"
    rfl rfl rfl rfl rfl rfl
  have U := (restart_twice_overwrites_marker memClient).2
    "prod" "database" worldA worldA (memClient.now worldA).2
    (restartStatefulSet memClient "prod" "database" worldA).world
    (restartStatefulSet memClient "prod" "database" worldA).world
    (memClient.now (restartStatefulSet memClient "prod" "database" worldA).world).2
    (restartStatefulSet memClient "prod" "database"
      (restartStatefulSet memClient "prod" "database" worldA).world).world
    ⟨"database", some [("app", "db")], ()⟩
    "2026-01-01 00:00:01 +0000 UTC" "2026-01-01 00:00:02 +0000 UTC"
    rfl rfl rfl rfl rfl rfl
  exact ⟨congrArg CallResult.err T.1, T.2.1.trans rfl, congrArg CallResult.err U.1,
    U.2.1.trans rfl⟩

theorem stderrLines_append {δ ς : Type} (l l' : List (Event δ ς)) :
    stderrLines (l ++ l') = stderrLines l ++ stderrLines l' := by
  simp [stderrLines, List.filterMap_append]

theorem stdoutLines_append {δ ς : Type} (l l' : List (Event δ ς)) :
    stdoutLines (l ++ l') = stdoutLines l ++ stdoutLines l' := by
  simp [stdoutLines, List.filterMap_append]

theorem getsAndUpdates_append {δ ς : Type} (l l' : List (Event δ ς)) :
    getsAndUpdates (l ++ l') = getsAndUpdates l ++ getsAndUpdates l' := by
  simp [getsAndUpdates]

theorem stderrLines_stderrEvents {δ ς : Type} (lines : List String) :
    stderrLines (stderrEvents lines : List (Event δ ς)) = lines := by
  induction lines with
  | nil => rfl
  | cons x xs ih => simpa [stderrEvents, stderrLines] using ih

theorem stdoutLines_stderrEvents {δ ς : Type} (lines : List String) :
    stdoutLines (stderrEvents lines : List (Event δ ς)) = [] := by
  simp [stderrEvents, stdoutLines]

theorem getsAndUpdates_stderrEvents {δ ς : Type} (lines : List String) :
    getsAndUpdates (stderrEvents lines : List (Event δ ς)) = [] := by
  simp [stderrEvents, getsAndUpdates, Event.isGetOrUpdate]

/-- C9 as stated fails at two runs.  In the run with no flag, outside a cluster,
`BuildConfigFromFlags` fails after logging its two warnings: the exit code is 1 and stderr
holds three lines, not a single one.  In the run with the command line `-bogus`,
`flag.Parse` ends the process: none of the three steps fails, and the exit code is 2, not
0. -/
theorem main_exit_code_counterexample :
    (SetupOrListingFails klogSetup worldA ∧ (main klogSetup worldA).exitCode = 1 ∧
      stderrLines (main klogSetup worldA).log =
        [klogNoFlags, klogNoCluster,
          "Error building kubeconfig: invalid configuration: no configuration has been " ++
            "provided, try setting KUBERNETES_MASTER environment variable\n"]) ∧
    (¬ SetupOrListingFails badFlagSetup worldA ∧ (main badFlagSetup worldA).exitCode = 2) := by
  refine ⟨⟨⟨"", "", rfl, Or.inl ⟨_, rfl⟩⟩, rfl, rfl⟩, ?_, rfl⟩
  rintro ⟨kubeconfig, ns, h, _⟩
  cases h

/-- C9, amended: in a run whose flags parse, `main` exits with code 1 exactly when building
the configuration, creating the client or listing the pods fails; it then writes to stderr,
after the lines the two library calls of the setup wrote there, one line of its own, the
diagnostic of the step that failed, writes nothing to stdout, and makes no restart attempt
and no get or update; in every other run whose flags parse it exits with code 0.  In a run
that `flag.Parse` ends, none of the three steps is reached, the exit code is the code
`flag.Parse` exits with, and the log holds the lines of `flag.Parse` only. -/
theorem main_exit_code {σ δ ς κ : Type} (setup : Setup σ δ ς κ) (w : σ) :
    (∀ kubeconfig ns, setup.flagParse = .parsed kubeconfig ns →
      ((main setup w).exitCode = 1 ↔ SetupOrListingFails setup w) ∧
      (SetupOrListingFails setup w →
        (∃ e, stderrLines (main setup w).log =
            setupLines setup kubeconfig ++ ["Error building kubeconfig: " ++ e ++ "\n"] ∨
          stderrLines (main setup w).log =
            setupLines setup kubeconfig ++
              ["Error creating Kubernetes client: " ++ e ++ "\n"] ∨
          stderrLines (main setup w).log =
            setupLines setup kubeconfig ++ ["Error listing pods: " ++ e ++ "\n"]) ∧
        stdoutLines (main setup w).log = [] ∧
        attempts (main setup w).log = [] ∧
        getsAndUpdates (main setup w).log = []) ∧
      (¬ SetupOrListingFails setup w → (main setup w).exitCode = 0)) ∧
    (∀ code lines, setup.flagParse = .exited code lines →
      ¬ SetupOrListingFails setup w ∧ main setup w = ⟨code, w, stderrEvents lines⟩) := by
  constructor
  · intro kubeconfig ns hflags
    rcases hb : setup.buildConfigFromFlags "" kubeconfig with ⟨out, r⟩
    cases r with
    | error e =>
      have hf : SetupOrListingFails setup w :=
        ⟨kubeconfig, ns, hflags, Or.inl ⟨e, by rw [hb]⟩⟩
      have hm : main setup w =
          ⟨1, w, stderrEvents out ++ [.stderr ("Error building kubeconfig: " ++ e ++ "\n")]⟩ := by
        simp [main, hflags, hb]
      have hsl : setupLines setup kubeconfig = out := by simp [setupLines, hb]
      refine ⟨⟨fun _ => hf, fun _ => by rw [hm]⟩, fun _ => ?_, fun h => absurd hf h⟩
      rw [hm, hsl]
      refine ⟨⟨e, Or.inl ?_⟩, ?_, ?_, ?_⟩
      · rw [stderrLines_append, stderrLines_stderrEvents]; rfl
      · rw [stdoutLines_append, stdoutLines_stderrEvents]; rfl
      · rw [attempts_append, attempts_stderrEvents]; rfl
      · rw [getsAndUpdates_append, getsAndUpdates_stderrEvents]; rfl
    | ok config =>
      rcases hn : setup.newForConfig config with ⟨out', r'⟩
      cases r' with
      | error e =>
        have hf : SetupOrListingFails setup w :=
          ⟨kubeconfig, ns, hflags, Or.inr (Or.inl ⟨config, e, by rw [hb], by rw [hn]⟩)⟩
        have hm : main setup w =
            ⟨1, w, stderrEvents out ++ stderrEvents out' ++
              [.stderr ("Error creating Kubernetes client: " ++ e ++ "\n")]⟩ := by
          simp [main, hflags, hb, hn]
        have hsl : setupLines setup kubeconfig = out ++ out' := by simp [setupLines, hb, hn]
        refine ⟨⟨fun _ => hf, fun _ => by rw [hm]⟩, fun _ => ?_, fun h => absurd hf h⟩
        rw [hm, hsl]
        refine ⟨⟨e, Or.inr (Or.inl ?_)⟩, ?_, ?_, ?_⟩
        · simp only [stderrLines_append, stderrLines_stderrEvents]; rfl
        · simp only [stdoutLines_append, stdoutLines_stderrEvents]; rfl
        · simp only [attempts_append, attempts_stderrEvents]; rfl
        · simp only [getsAndUpdates_append, getsAndUpdates_stderrEvents]; rfl
      | ok clientset =>
        rcases hl : clientset.listPods ns w with ⟨r'', w1⟩
        have hsl : setupLines setup kubeconfig = out ++ out' := by simp [setupLines, hb, hn]
        cases r'' with
        | error e =>
          have hf : SetupOrListingFails setup w :=
            ⟨kubeconfig, ns, hflags,
              Or.inr (Or.inr ⟨config, clientset, e, by rw [hb], by rw [hn], by rw [hl]⟩)⟩
          have hm : main setup w =
              ⟨1, w1, stderrEvents out ++ stderrEvents out' ++
                [.listPods ns, .stderr ("Error listing pods: " ++ e ++ "\n")]⟩ := by
            simp [main, hflags, hb, hn, hl]
          refine ⟨⟨fun _ => hf, fun _ => by rw [hm]⟩, fun _ => ?_, fun h => absurd hf h⟩
          rw [hm, hsl]
          refine ⟨⟨e, Or.inr (Or.inr ?_)⟩, ?_, ?_, ?_⟩
          · simp only [stderrLines_append, stderrLines_stderrEvents]; rfl
          · simp only [stdoutLines_append, stdoutLines_stderrEvents]; rfl
          · simp only [attempts_append, attempts_stderrEvents]; rfl
          · simp only [getsAndUpdates_append, getsAndUpdates_stderrEvents]; rfl
        | ok pods =>
          have hm := main_of_listed setup kubeconfig ns w w1 out out' config clientset pods
            hflags hb hn hl
          have hnf : ¬ SetupOrListingFails setup w := by
            rintro ⟨k, n, hk, h⟩
            rw [hflags] at hk
            cases hk
            rcases h with ⟨e, h⟩ | ⟨config', e, h, h'⟩ | ⟨config', clientset', e, h, h', h''⟩
            · rw [hb] at h; cases h
            · rw [hb] at h; cases h
              rw [hn] at h'; cases h'
            · rw [hb] at h; cases h
              rw [hn] at h'; cases h'
              rw [hl] at h''; cases h''
          refine ⟨⟨fun h => ?_, fun h => absurd h hnf⟩, fun h => absurd h hnf, fun _ => ?_⟩
          · rw [hm] at h; cases h
          · rw [hm]
  · intro code lines hflags
    refine ⟨?_, by simp [main, hflags]⟩
    rintro ⟨k, n, hk, _⟩
    rw [hflags] at hk
    cases hk

/-- A run whose listing fails exits with code 1 after the listing call and one line on
stderr; the run of scenario A exits with code 0; the run with the command line `-bogus`
makes no call and exits with the code of `flag.Parse`. -/
theorem main_exit_code_witness :
    downSetup.flagParse = .parsed "" "prod" ∧
    (main downSetup worldA).exitCode = 1 ∧
    (main downSetup worldA).log =
      [.listPods "prod", .stderr "Error listing pods: connection refused\n"] ∧
    (main (memSetup "" "prod") worldA).exitCode = 0 ∧
    (main badFlagSetup worldA).exitCode = 2 ∧
    calls (main badFlagSetup worldA).log = [] :=
  ⟨rfl,
    ((main_exit_code downSetup worldA).1 "" "prod" rfl).1.mpr
      ⟨"", "prod", rfl, Or.inr (Or.inr ⟨(), downClient, "connection refused", rfl, rfl, rfl⟩)⟩,
    by decide,
    ((main_exit_code (memSetup "" "prod") worldA).1 "" "prod" rfl).2.2
      (fun h => absurd (((main_exit_code (memSetup "" "prod") worldA).1 "" "prod" rfl).1.mpr h)
        (by decide)),
    congrArg Run.exitCode ((main_exit_code badFlagSetup worldA).2 2 _ rfl).2,
    by decide⟩

section
variable {σ δ ς : Type} (c : Clientset σ δ ς)

/-! ## Outcome lines follow their attempts -/

theorem attemptsReported_append (l d : List (Event δ ς)) (hl : attemptsReported l)
    (hlast : ∀ k ns n r, l.getLast? ≠ some (.restart k ns n r))
    (hd : attemptsReported d) : attemptsReported (l ++ d) := by
  induction l with
  | nil => exact hd
  | cons e l ih =>
    have ih' : attemptsReported l → attemptsReported (l ++ d) := by
      intro h
      cases l with
      | nil => exact hd
      | cons e' l' =>
        refine ih h fun k ns n r => ?_
        have := hlast k ns n r
        rwa [List.getLast?_cons_cons] at this
    cases e with
    | restart k ns n r =>
      obtain ⟨hhead, hrest⟩ := hl
      refine ⟨?_, ih' hrest⟩
      cases l with
      | nil => simp at hhead
      | cons e' l' => simpa using hhead
    | listPods _ => exact ih' hl
    | getDeployment _ _ => exact ih' hl
    | updateDeployment _ _ => exact ih' hl
    | getStatefulSet _ _ => exact ih' hl
    | updateStatefulSet _ _ => exact ih' hl
    | stdout _ => exact ih' hl
    | stderr _ => exact ih' hl

theorem outcomeLine_ne_restart (kind name : String) (e : Option GoError) (k : Kind)
    (ns n : String) (r : Option GoError) :
    (outcomeLine kind name e : Event δ ς) ≠ .restart k ns n r := by
  cases e <;> simp [outcomeLine]

theorem attemptsReported_outcomeLine (kind name : String) (e : Option GoError) :
    attemptsReported [(outcomeLine kind name e : Event δ ς)] := by
  cases e <;> simp [outcomeLine, attemptsReported]

theorem attemptsReported_restartDeployment (ns name : String) (w : σ) :
    attemptsReported ((restartDeployment c ns name w).calls ++
      [.restart .Deployment ns name (restartDeployment c ns name w).err,
        outcomeLine "Deployment" name (restartDeployment c ns name w).err]) := by
  rcases restartDeployment_calls c ns name w with h | ⟨d, h⟩ <;>
    simp [h, attemptsReported, Kind.toString, attemptsReported_outcomeLine]

theorem attemptsReported_restartStatefulSet (ns name : String) (w : σ) :
    attemptsReported ((restartStatefulSet c ns name w).calls ++
      [.restart .StatefulSet ns name (restartStatefulSet c ns name w).err,
        outcomeLine "StatefulSet" name (restartStatefulSet c ns name w).err]) := by
  rcases restartStatefulSet_calls c ns name w with h | ⟨d, h⟩ <;>
    simp [h, attemptsReported, Kind.toString, attemptsReported_outcomeLine]

theorem attemptsReported_of_attempts_nil (l : List (Event δ ς)) (h : attempts l = []) :
    attemptsReported l := by
  induction l with
  | nil => trivial
  | cons e l ih =>
    cases e with
    | restart k ns n r => simp [attempts] at h
    | listPods _ => exact ih h
    | getDeployment _ _ => exact ih h
    | updateDeployment _ _ => exact ih h
    | getStatefulSet _ _ => exact ih h
    | updateStatefulSet _ _ => exact ih h
    | stdout _ => exact ih h
    | stderr _ => exact ih h

/-- The log of a state is well reported: every attempt in it has its line, and it does not
end with an attempt still waiting for its line. -/
theorem ownerRefStep_reported (pod : Pod) (s : LoopState σ δ ς) (o : OwnerReference)
    (hl : attemptsReported s.log)
    (hlast : ∀ k ns n r, s.log.getLast? ≠ some (.restart k ns n r)) :
    attemptsReported (ownerRefStep c pod s o).log ∧
    ∀ k ns n r, (ownerRefStep c pod s o).log.getLast? ≠ some (.restart k ns n r) := by
  constructor
  · rw [ownerRefStep_log]
    by_cases h1 : o.Kind = "Deployment"
    · rw [switchKind_deployment c pod o s h1, h1]
      simp only [List.append_assoc, List.singleton_append]
      exact attemptsReported_append _ _ hl hlast (attemptsReported_restartDeployment c _ _ _)
    · by_cases h2 : o.Kind = "StatefulSet"
      · rw [switchKind_statefulSet c pod o s h2, h2]
        simp only [List.append_assoc, List.singleton_append]
        exact attemptsReported_append _ _ hl hlast (attemptsReported_restartStatefulSet c _ _ _)
      · rw [switchKind_other c pod o s h1 h2]
        exact attemptsReported_append _ _ hl hlast (attemptsReported_outcomeLine _ _ _)
  · intro k ns n r
    rw [ownerRefStep_log, List.getLast?_append]
    simp only [List.getLast?_singleton, Option.or_some]
    exact fun h => outcomeLine_ne_restart _ _ _ _ _ _ _ (Option.some.inj h)

theorem ownerRefsLoop_reported (pod : Pod) (s : LoopState σ δ ς) (os : List OwnerReference)
    (hl : attemptsReported s.log)
    (hlast : ∀ k ns n r, s.log.getLast? ≠ some (.restart k ns n r)) :
    attemptsReported (ownerRefsLoop c pod s os).log ∧
    ∀ k ns n r, (ownerRefsLoop c pod s os).log.getLast? ≠ some (.restart k ns n r) := by
  induction os generalizing s with
  | nil => exact ⟨hl, hlast⟩
  | cons o os ih =>
    rw [ownerRefsLoop_cons]
    exact ih _ (ownerRefStep_reported c pod s o hl hlast).1
      (ownerRefStep_reported c pod s o hl hlast).2

theorem podStep_reported (s : LoopState σ δ ς) (pod : Pod)
    (hl : attemptsReported s.log)
    (hlast : ∀ k ns n r, s.log.getLast? ≠ some (.restart k ns n r)) :
    attemptsReported (podStep c s pod).log ∧
    ∀ k ns n r, (podStep c s pod).log.getLast? ≠ some (.restart k ns n r) := by
  by_cases h : stringsContains pod.Name "database" = true
  · rw [podStep_of_match c s pod h]
    exact ownerRefsLoop_reported c pod s _ hl hlast
  · have h' : stringsContains pod.Name "database" = false := by simpa using h
    rw [podStep_of_no_match c s pod h']
    exact ⟨hl, hlast⟩

theorem mainLoop_reported (s : LoopState σ δ ς) (pods : List Pod)
    (hl : attemptsReported s.log)
    (hlast : ∀ k ns n r, s.log.getLast? ≠ some (.restart k ns n r)) :
    attemptsReported (mainLoop c s pods).log ∧
    ∀ k ns n r, (mainLoop c s pods).log.getLast? ≠ some (.restart k ns n r) := by
  induction pods generalizing s with
  | nil => exact ⟨hl, hlast⟩
  | cons p ps ih =>
    rw [mainLoop_cons]
    exact ih _ (podStep_reported c s p hl hlast).1 (podStep_reported c s p hl hlast).2

theorem length_attemptResults (l : List (Event δ ς)) :
    (attemptResults l).length = (attempts l).length := by
  induction l with
  | nil => rfl
  | cons e l ih => cases e <;> simp_all [attemptResults, attempts, List.filterMap_cons]

end

/-- C6: after a successful listing, whatever the client answers to the gets and updates (so
whichever restart attempts fail), `main` attempts every Controller Target of the listed pods,
in order and with the kind, namespace and name it has in the pod list, the same as in the run
over any other client; every attempt is followed at once by its own outcome line, the success
line when its own result is nil and the failure line with its own error otherwise; and the
run exits with code 0. -/
theorem main_batch_continues {σ δ ς κ : Type} (setup : Setup σ δ ς κ)
    (kubeconfig ns : String) (w w1 : σ) (out out' : List String) (config : κ)
    (clientset : Clientset σ δ ς) (pods : List Pod)
    (hflags : setup.flagParse = .parsed kubeconfig ns)
    (hconfig : setup.buildConfigFromFlags "" kubeconfig = (out, .ok config))
    (hclient : setup.newForConfig config = (out', .ok clientset))
    (hlist : clientset.listPods ns w = (.ok pods, w1)) :
    attempts (main setup w).log = targets pods ∧
    (attemptResults (main setup w).log).length = (targets pods).length ∧
    (∀ (c' : Clientset σ δ ς) (w' : σ),
      attempts (mainLoop c' ⟨none, w', [.listPods ns]⟩ pods).log =
        attempts (main setup w).log) ∧
    attemptsReported (main setup w).log ∧
    (main setup w).exitCode = 0 := by
  rw [main_of_listed setup kubeconfig ns w w1 out out' config clientset pods hflags hconfig
    hclient hlist]
  have h0 : attempts (stderrEvents out ++ stderrEvents out' ++ [.listPods ns] :
      List (Event δ ς)) = [] := by
    simp only [attempts_append, attempts_stderrEvents, List.nil_append]
    rfl
  have ha : ∀ (c' : Clientset σ δ ς) (w' : σ) (l : List (Event δ ς)), attempts l = [] →
      attempts (mainLoop c' ⟨none, w', l⟩ pods).log = targets pods := by
    intro c' w' l hl
    rw [attempts_mainLoop, hl]; rfl
  refine ⟨ha _ _ _ h0, by rw [length_attemptResults, ha _ _ _ h0],
    fun c' w' => by rw [ha c' w' [.listPods ns] rfl, ha _ _ _ h0], ?_, rfl⟩
  refine (mainLoop_reported clientset _ pods (attemptsReported_of_attempts_nil _ h0) ?_).1
  intro k ns' n r
  simp

/-- A batch of three targets whose second, the Deployment "ghost", does not exist: the third
is still attempted, each attempt has its own line, and the exit code is 0. -/
theorem main_batch_continues_witness :
    memClient.listPods "prod" worldD = (.ok worldD.pods, worldD) ∧
    attempts (main (memSetup "" "prod") worldD).log =
      [⟨.StatefulSet, "prod", "database"⟩, ⟨.Deployment, "prod", "ghost"⟩,
        ⟨.Deployment, "prod", "web"⟩] ∧
    attemptResults (main (memSetup "" "prod") worldD).log =
      [none, some "deployments.apps \"ghost\" not found", none] ∧
    printed (main (memSetup "" "prod") worldD).log =
      [.stdout "Successfully restarted StatefulSet database\n",
        .stderr "Error restarting Deployment ghost: deployments.apps \"ghost\" not found\n",
        .stdout "Successfully restarted Deployment web\n"] ∧
    attemptsReported (main (memSetup "" "prod") worldD).log ∧
    (main (memSetup "" "prod") worldD).exitCode = 0 :=
  ⟨rfl,
    (main_batch_continues (memSetup "" "prod") "" "prod" worldD worldD [] [] () memClient
      worldD.pods rfl rfl rfl rfl).1.trans (by decide),
    by decide, by decide,
    (main_batch_continues (memSetup "" "prod") "" "prod" worldD worldD [] [] () memClient
      worldD.pods rfl rfl rfl rfl).2.2.2.1,
    (main_batch_continues (memSetup "" "prod") "" "prod" worldD worldD [] [] () memClient
      worldD.pods rfl rfl rfl rfl).2.2.2.2⟩

section
variable {σ δ ς : Type} (c : Clientset σ δ ς)

/-! ## The variable `err` holds the result of the most recent attempt -/

theorem attemptResults_append (l l' : List (Event δ ς)) :
    attemptResults (l ++ l') = attemptResults l ++ attemptResults l' := by
  simp [attemptResults, List.filterMap_append]

theorem attemptResults_outcomeLine (kind name : String) (e : Option GoError) :
    attemptResults [(outcomeLine kind name e : Event δ ς)] = [] := by
  cases e <;> rfl

theorem attemptResults_restartDeployment (ns name : String) (w : σ) :
    attemptResults (restartDeployment c ns name w).calls = [] := by
  rcases restartDeployment_calls c ns name w with h | ⟨d, h⟩ <;> simp [h, attemptResults]

theorem attemptResults_restartStatefulSet (ns name : String) (w : σ) :
    attemptResults (restartStatefulSet c ns name w).calls = [] := by
  rcases restartStatefulSet_calls c ns name w with h | ⟨d, h⟩ <;> simp [h, attemptResults]

theorem lastResult_append_outcomeLine (l : List (Event δ ς)) (kind name : String)
    (e : Option GoError) : lastResult (l ++ [outcomeLine kind name e]) = lastResult l := by
  simp [lastResult, attemptResults_append, attemptResults_outcomeLine]

theorem attemptResults_stderrEvents (lines : List String) :
    attemptResults (stderrEvents lines : List (Event δ ς)) = [] := by
  simp [stderrEvents, attemptResults]

theorem lastResult_listed (out out' : List String) (ns : String) :
    lastResult (stderrEvents out ++ stderrEvents out' ++ [.listPods ns] : List (Event δ ς)) =
      none := by
  simp only [lastResult, attemptResults_append, attemptResults_stderrEvents, List.nil_append]
  rfl

theorem switchKind_err (pod : Pod) (o : OwnerReference) (s : LoopState σ δ ς)
    (h : s.err = lastResult s.log) :
    (switchKind c pod o s).err = lastResult (switchKind c pod o s).log := by
  by_cases h1 : o.Kind = "Deployment"
  · rw [switchKind_deployment c pod o s h1]
    simp [lastResult, attemptResults_append, attemptResults_restartDeployment, attemptResults]
  · by_cases h2 : o.Kind = "StatefulSet"
    · rw [switchKind_statefulSet c pod o s h2]
      simp [lastResult, attemptResults_append, attemptResults_restartStatefulSet,
        attemptResults]
    · rw [switchKind_other c pod o s h1 h2]
      exact h

theorem ownerRefStep_err (pod : Pod) (s : LoopState σ δ ς) (o : OwnerReference)
    (h : s.err = lastResult s.log) :
    (ownerRefStep c pod s o).err = lastResult (ownerRefStep c pod s o).log := by
  rw [ownerRefStep_log, lastResult_append_outcomeLine]
  exact switchKind_err c pod o s h

theorem ownerRefsLoop_err (pod : Pod) (s : LoopState σ δ ς) (os : List OwnerReference)
    (h : s.err = lastResult s.log) :
    (ownerRefsLoop c pod s os).err = lastResult (ownerRefsLoop c pod s os).log := by
  induction os generalizing s with
  | nil => exact h
  | cons o os ih =>
    rw [ownerRefsLoop_cons]
    exact ih _ (ownerRefStep_err c pod s o h)

theorem podStep_err (s : LoopState σ δ ς) (pod : Pod) (h : s.err = lastResult s.log) :
    (podStep c s pod).err = lastResult (podStep c s pod).log := by
  by_cases hm : stringsContains pod.Name "database" = true
  · rw [podStep_of_match c s pod hm]
    exact ownerRefsLoop_err c pod s _ h
  · have h' : stringsContains pod.Name "database" = false := by simpa using hm
    rw [podStep_of_no_match c s pod h']
    exact h

theorem mainLoop_err (s : LoopState σ δ ς) (pods : List Pod) (h : s.err = lastResult s.log) :
    (mainLoop c s pods).err = lastResult (mainLoop c s pods).log := by
  induction pods generalizing s with
  | nil => exact h
  | cons p ps ih =>
    rw [mainLoop_cons]
    exact ih _ (podStep_err c s p h)

end

/-- C10: when the loop of `main`, started after a successful listing (with `err` nil and a
log that holds the lines the library calls of the setup wrote to stderr and the listing
call), reaches an owner reference of a kind other than "Deployment" and "StatefulSet" on a
pod whose name contains "database", the iteration leaves `err` and the world untouched and
adds to the log exactly one line, labelled with the kind and name of that owner reference:
the success line when the run has made no restart attempt so far or the most recent one
succeeded, and otherwise the failure line with the error of the most recent restart
attempt. -/
theorem other_kind_line_from_last_attempt {σ δ ς : Type} (c : Clientset σ δ ς)
    (ns : String) (w : σ) (out out' : List String) (before after : List Pod) (pod : Pod)
    (pre post : List OwnerReference) (o : OwnerReference)
    (hmatch : stringsContains pod.Name "database" = true)
    (hrefs : pod.OwnerReferences = pre ++ o :: post)
    (h1 : o.Kind ≠ "Deployment") (h2 : o.Kind ≠ "StatefulSet") :
    mainLoop c (listedState w out out' ns) (before ++ pod :: after) =
      mainLoop c (ownerRefsLoop c pod
        (ownerRefStep c pod (reachedState c (listedState w out out' ns) before pod pre) o)
        post) after ∧
    ownerRefStep c pod (reachedState c (listedState w out out' ns) before pod pre) o =
      ⟨(reachedState c (listedState w out out' ns) before pod pre).err,
        (reachedState c (listedState w out out' ns) before pod pre).world,
        (reachedState c (listedState w out out' ns) before pod pre).log ++
          [outcomeLine o.Kind o.Name
            (lastResult (reachedState c (listedState w out out' ns) before pod pre).log)]⟩ ∧
    (lastResult (reachedState c (listedState w out out' ns) before pod pre).log = none →
      (outcomeLine o.Kind o.Name
          (lastResult (reachedState c (listedState w out out' ns) before pod pre).log) :
          Event δ ς) =
        .stdout ("Successfully restarted " ++ o.Kind ++ " " ++ o.Name ++ "\n")) ∧
    (∀ e, lastResult (reachedState c (listedState w out out' ns) before pod pre).log = some e →
      (outcomeLine o.Kind o.Name
          (lastResult (reachedState c (listedState w out out' ns) before pod pre).log) :
          Event δ ς) =
        .stderr ("Error restarting " ++ o.Kind ++ " " ++ o.Name ++ ": " ++ e ++ "\n")) := by
  have hinv : (reachedState c (listedState w out out' ns) before pod pre).err =
      lastResult (reachedState c (listedState w out out' ns) before pod pre).log :=
    ownerRefsLoop_err c pod _ pre
      (mainLoop_err c _ before (lastResult_listed out out' ns).symm)
  refine ⟨?_, ?_, ?_, ?_⟩
  · rw [mainLoop_append, mainLoop_cons, podStep_of_match c _ pod hmatch, hrefs,
      ownerRefsLoop_append, ownerRefsLoop_cons]
    rfl
  · rw [← hinv]
    simp only [ownerRefStep, switchKind_other c pod o _ h1 h2]
  · intro h
    rw [h]; rfl
  · intro e h
    rw [h]; rfl

/-- Scenario B: the pod "database-cache-7f9" has the single owner (ReplicaSet, rs); after a
successful listing `main` prints "Successfully restarted ReplicaSet rs" although it issued no
get and no update. -/
theorem other_kind_line_from_last_attempt_witness :
    stringsContains podB.Name "database" = true ∧
    (main (memSetup "" "") worldB).log =
      [.listPods "", .stdout "Successfully restarted ReplicaSet rs\n"] ∧
    getsAndUpdates (main (memSetup "" "") worldB).log = [] :=
  ⟨by decide,
    (congrArg LoopState.log
      (other_kind_line_from_last_attempt memClient "" worldB [] [] [] [] podB [] []
        ⟨"ReplicaSet", "rs"⟩ (by decide) rfl (by decide) (by decide)).2.1).trans (by decide),
    by decide⟩

/-- C4, the code at concrete inputs: for a database pod owned by the missing Deployment
"ghost" and by the ReplicaSet "rs", `main` makes one restart attempt, which fails, and
prints two failure lines, the second for the ReplicaSet and with the error of the Deployment;
for the database pod of scenario B, owned by a ReplicaSet only, it makes no restart attempt
and prints a success line. -/
theorem main_prints_line_without_attempt :
    (main (memSetup "" "prod") worldE).log =
      [.listPods "prod", .getDeployment "prod" "ghost",
        .restart .Deployment "prod" "ghost" (some "deployments.apps \"ghost\" not found"),
        .stderr "Error restarting Deployment ghost: deployments.apps \"ghost\" not found\n",
        .stderr "Error restarting ReplicaSet rs: deployments.apps \"ghost\" not found\n"] ∧
    (attempts (main (memSetup "" "prod") worldE).log).length = 1 ∧
    (stderrLines (main (memSetup "" "prod") worldE).log).length = 2 ∧
    attempts (main (memSetup "" "prod") worldB).log = [] ∧
    printed (main (memSetup "" "prod") worldB).log =
      [.stdout "Successfully restarted ReplicaSet rs\n"] := by
  decide

end Redeploy
